import Mathlib

/-!
# AeroNimbus: booking / payment transactions over the relational store

A shallow embedding of `backend/src/models/Booking.js`, `Payment.js` and
`Flight.js`, and of the controllers `bookingController.js` and
`paymentController.js` (a request is its body fields or route parameter and the
authenticated user id, a response its status and JSON body).  The MySQL database is an explicit `Store` value (one list of rows
per table, plus the two AUTO_INCREMENT counters); every model method is a
function from the store before the call to the store after it together with the
value returned or the `Error` message thrown.  A transaction that throws is
rolled back: the store after the call is the store before it.  (The throws that
follow an INSERT are the `affectedRows === 0` checks; `create_store_cases`,
`cancel_store_cases` and `pay_store_cases` show they never fire.)  `affectedRows`
counts the rows matched by the WHERE clause.

Numbers: ids and seat counts are `Int` (JavaScript numbers holding integers);
DECIMAL money columns are `Int` counts of hundredths, so `price * numSeats` is
exact; timestamps are `Nat` milliseconds.
-/

namespace AeroNimbus

/-! ## Data model -/

/-- The three values of `BOOKINGS.status`. -/
inductive BookingStatus where
  | pending_payment
  | confirmed
  | cancelled
  deriving DecidableEq

/-- The status as the string the JavaScript code sees. -/
def BookingStatus.toString : BookingStatus → String
  | .pending_payment => "pending_payment"
  | .confirmed => "confirmed"
  | .cancelled => "cancelled"

/-- A row of `AIRPORTS`. -/
structure AirportRow where
  airport_code : String
  name : String
  city : String
  country : String
  deriving DecidableEq

/-- A row of `FLIGHTS`; `price` in hundredths. -/
structure FlightRow where
  flight_id : Int
  flight_number : String
  departure_airport_code : String
  arrival_airport_code : String
  departure_time : Nat
  arrival_time : Nat
  price : Int
  total_seats : Int
  available_seats : Int
  deriving DecidableEq

/-- A row of `BOOKINGS`; `total_price` in hundredths. -/
structure BookingRow where
  booking_id : Int
  user_id : Int
  flight_id : Int
  num_seats : Int
  total_price : Int
  status : BookingStatus
  booking_time : Nat
  deriving DecidableEq

/-- A row of `PAYMENTS`; `amount` in hundredths. -/
structure PaymentRow where
  payment_id : Int
  booking_id : Int
  payment_method : String
  card_number_last4 : String
  amount : Int
  status : String
  transaction_id : String
  payment_time : Nat
  deriving DecidableEq

/-- The database: the four tables and the AUTO_INCREMENT counters of
`BOOKINGS.booking_id` and `PAYMENTS.payment_id`. -/
structure Store where
  airports : List AirportRow
  flights : List FlightRow
  bookings : List BookingRow
  payments : List PaymentRow
  nextBookingId : Int
  nextPaymentId : Int
  deriving DecidableEq

/-- A row of the four-table join selected by `Booking.findById`. -/
structure JoinedBooking where
  booking_id : Int
  user_id : Int
  booking_time : Nat
  status : BookingStatus
  num_seats : Int
  total_price : Int
  flight_id : Int
  flight_number : String
  departure_time : Nat
  arrival_time : Nat
  price_per_seat : Int
  departure_city : String
  departure_airport_code : String
  departure_airport_name : String
  arrival_city : String
  arrival_airport_code : String
  arrival_airport_name : String
  deriving DecidableEq

/-! A model method hands back `Except String α`: the returned value or the
message of the thrown `Error`. -/

deriving instance DecidableEq for Except

/-! ## `models/Booking.js` -/

/-- The select list of `Booking.findById` for one joined quadruple. -/
def joinedRow (b : BookingRow) (f : FlightRow) (dep arr : AirportRow) : JoinedBooking :=
  { booking_id := b.booking_id, user_id := b.user_id, booking_time := b.booking_time,
    status := b.status, num_seats := b.num_seats, total_price := b.total_price,
    flight_id := f.flight_id, flight_number := f.flight_number,
    departure_time := f.departure_time, arrival_time := f.arrival_time,
    price_per_seat := f.price,
    departure_city := dep.city, departure_airport_code := dep.airport_code,
    departure_airport_name := dep.name,
    arrival_city := arr.city, arrival_airport_code := arr.airport_code,
    arrival_airport_name := arr.name }

/-- The rows `BOOKINGS b JOIN FLIGHTS f JOIN AIRPORTS dep_ap JOIN AIRPORTS arr_ap`
contributes for one booking row: inner joins, so none when the flight row or one
of its airport rows is missing. -/
def joinBooking (s : Store) (b : BookingRow) : List JoinedBooking :=
  (s.flights.filter fun f => f.flight_id = b.flight_id).flatMap fun f =>
    (s.airports.filter fun a => a.airport_code = f.departure_airport_code).flatMap fun dep =>
      (s.airports.filter fun a => a.airport_code = f.arrival_airport_code).map fun arr =>
        joinedRow b f dep arr

/-- `Booking.findById`: `rows.length > 0 ? rows[0] : null` over the join
`WHERE b.booking_id = ?`. -/
def Booking.findById (s : Store) (bookingId : Int) : Option JoinedBooking :=
  ((s.bookings.filter fun b => b.booking_id = bookingId).flatMap (joinBooking s)).head?

/-- `Booking.updateStatus`: `UPDATE BOOKINGS SET status = ? WHERE booking_id = ?`;
the second component is `affectedRows` (the rows matched). -/
def Booking.updateStatus (s : Store) (bookingId : Int) (status : BookingStatus) : Store × Nat :=
  ({ s with bookings := s.bookings.map fun b =>
        if b.booking_id = bookingId then { b with status := status } else b },
   (s.bookings.filter fun b => b.booking_id = bookingId).length)

/-- The row `INSERT INTO BOOKINGS (user_id, flight_id, num_seats, total_price,
status, booking_time) VALUES (?, ?, ?, ?, 'pending_payment', NOW())` adds; its
`booking_id` is the AUTO_INCREMENT value, `insertId`. -/
def Booking.insertedRow (s : Store) (now : Nat) (userId flightId numSeats totalPrice : Int) :
    BookingRow :=
  { booking_id := s.nextBookingId, user_id := userId, flight_id := flightId,
    num_seats := numSeats, total_price := totalPrice, status := .pending_payment,
    booking_time := now }

/-- `Booking.create(userId, flightId, numSeats)` run at clock reading `now`
(the value of `NOW()`).  Returns the store after the call and either the row
`findById` gives for the new booking (`none` for `null`) or the thrown message. -/
def Booking.create (s : Store) (now : Nat) (userId flightId numSeats : Int) :
    Store × Except String (Option JoinedBooking) :=
  -- 1. SELECT price, available_seats FROM FLIGHTS WHERE flight_id = ? FOR UPDATE
  match s.flights.filter fun f => f.flight_id = flightId with
  | [] => (s, .error "Flight not found.")
  | flight :: _ =>
    if flight.available_seats < numSeats then
      (s, .error "Not enough available seats on this flight.")
    else
      -- 2. total price
      let totalPrice := flight.price * numSeats
      -- 3. INSERT INTO BOOKINGS ... 'pending_payment', NOW()
      let row := Booking.insertedRow s now userId flightId numSeats totalPrice
      let s1 : Store :=
        { s with bookings := s.bookings ++ [row], nextBookingId := s.nextBookingId + 1 }
      let newBookingId := row.booking_id
      -- 4. UPDATE FLIGHTS SET available_seats = available_seats - ? WHERE flight_id = ?
      let affectedRows := (s1.flights.filter fun f => f.flight_id = flightId).length
      let s2 : Store := { s1 with flights := s1.flights.map fun f =>
        if f.flight_id = flightId then
          { f with available_seats := f.available_seats - numSeats } else f }
      if affectedRows = 0 then
        (s, .error "Failed to update flight seat count.")
      else
        -- 5. commit, 6. fetch the new booking
        (s2, .ok (Booking.findById s2 newBookingId))

/-- `Booking.cancel(bookingId, userId)`.  Returns the store after the call and
either `updateResult.affectedRows` or the thrown message. -/
def Booking.cancel (s : Store) (bookingId userId : Int) : Store × Except String Nat :=
  -- 1. find the booking, verify ownership and status
  match Booking.findById s bookingId with
  | none => (s, .error "Booking not found.")
  | some booking =>
    if booking.user_id ≠ userId then
      (s, .error "User not authorized to cancel this booking.")
    else if booking.status = .cancelled then
      (s, .error "Booking is already cancelled.")
    else
      -- 2. status to 'cancelled'
      let (s1, updateResult) := Booking.updateStatus s bookingId .cancelled
      if updateResult = 0 then
        (s, .error "Failed to update booking status.")
      else
        -- 3. UPDATE FLIGHTS SET available_seats = available_seats + ? WHERE flight_id = ?
        --    (zero affected rows only logs a warning)
        let s2 : Store := { s1 with flights := s1.flights.map fun f =>
          if f.flight_id = booking.flight_id then
            { f with available_seats := f.available_seats + booking.num_seats } else f }
        -- 4. commit
        (s2, .ok updateResult)

/-! ## `models/Payment.js` -/

/-- The row `INSERT INTO PAYMENTS (booking_id, payment_method, card_number_last4,
amount, status, transaction_id, payment_time) VALUES (?, ?, ?, ?, 'success', ?,
NOW())` adds, with the mock transaction id built from `Date.now()`; its
`payment_id` is the AUTO_INCREMENT value, `insertId`. -/
def Payment.insertedRow (s : Store) (now : Nat) (bookingId : Int)
    (paymentMethod cardNumberLast4 : String) (amount : Int) : PaymentRow :=
  { payment_id := s.nextPaymentId, booking_id := bookingId,
    payment_method := paymentMethod, card_number_last4 := cardNumberLast4,
    amount := amount, status := "success",
    transaction_id := "mock_txn_" ++ toString now, payment_time := now }

/-- `Payment.processMockPayment(bookingId, paymentMethod, cardNumberLast4, amount)`
run at clock reading `now` (the value of `Date.now()` and of `NOW()`).  The
amount comparison only logs, so it has no counterpart here.  Returns the store
after the call and either `newPaymentRows[0]` (`none` for `undefined`) or the
thrown message. -/
def Payment.processMockPayment (s : Store) (now : Nat) (bookingId : Int)
    (paymentMethod cardNumberLast4 : String) (amount : Int) :
    Store × Except String (Option PaymentRow) :=
  -- 1. SELECT status, total_price FROM BOOKINGS WHERE booking_id = ? FOR UPDATE
  match s.bookings.filter fun b => b.booking_id = bookingId with
  | [] => (s, .error "Booking not found.")
  | booking :: _ =>
    if booking.status ≠ .pending_payment then
      (s, .error ("Booking status is already " ++ booking.status.toString ++ "."))
    else
      -- 2. INSERT INTO PAYMENTS ... 'success', mock_txn_<Date.now()>, NOW()
      let row := Payment.insertedRow s now bookingId paymentMethod cardNumberLast4 amount
      let newPaymentId := row.payment_id
      let s1 : Store :=
        { s with payments := s.payments ++ [row], nextPaymentId := s.nextPaymentId + 1 }
      -- 3. booking status to 'confirmed'
      let (s2, affectedRows) := Booking.updateStatus s1 bookingId .confirmed
      if affectedRows = 0 then
        (s, .error "Failed to update booking status to confirmed.")
      else
        -- 4. commit, 5. SELECT * FROM PAYMENTS WHERE payment_id = ?
        (s2, .ok (s2.payments.filter fun p => p.payment_id = newPaymentId).head?)

/-- `Payment.findByBookingId`. -/
def Payment.findByBookingId (s : Store) (bookingId : Int) : Option PaymentRow :=
  (s.payments.filter fun p => p.booking_id = bookingId).head?

/-! ## `models/Flight.js` -/

/-- `Flight.updateAvailableSeats`: `UPDATE FLIGHTS SET available_seats =
available_seats + ? WHERE flight_id = ? AND available_seats + ? >= 0`; the second
component is `affectedRows`. -/
def Flight.updateAvailableSeats (s : Store) (flightId changeInSeats : Int) : Store × Nat :=
  ({ s with flights := s.flights.map fun f =>
        if f.flight_id = flightId ∧ f.available_seats + changeInSeats ≥ 0 then
          { f with available_seats := f.available_seats + changeInSeats } else f },
   (s.flights.filter fun f =>
      f.flight_id = flightId ∧ f.available_seats + changeInSeats ≥ 0).length)

/-- Step 1 of `Booking.cancel`, the part that only reads: `findById` (a SELECT
without `FOR UPDATE`, so no row lock is taken) and the three checks.  Gives the
loaded booking or the thrown message. -/
def Booking.cancelLoad (s : Store) (bookingId userId : Int) : Except String JoinedBooking :=
  match Booking.findById s bookingId with
  | none => .error "Booking not found."
  | some booking =>
    if booking.user_id ≠ userId then
      .error "User not authorized to cancel this booking."
    else if booking.status = .cancelled then
      .error "Booking is already cancelled."
    else
      .ok booking

/-- Steps 2 to 4 of `Booking.cancel`, the part that writes, run with the
booking that step 1 loaded: the two UPDATEs and the commit. -/
def Booking.cancelApply (s : Store) (bookingId : Int) (booking : JoinedBooking) :
    Store × Except String Nat :=
  let (s1, updateResult) := Booking.updateStatus s bookingId .cancelled
  if updateResult = 0 then
    (s, .error "Failed to update booking status.")
  else
    let s2 : Store := { s1 with flights := s1.flights.map fun f =>
      if f.flight_id = booking.flight_id then
        { f with available_seats := f.available_seats + booking.num_seats } else f }
    (s2, .ok updateResult)

/-! ## JavaScript values at the HTTP boundary -/

/-- A field of a JSON request body, as far as the controllers look at it: its
truthiness and its `ToString`.  `int` is a number holding an integer that
`ToString` prints in decimal (below 10^21 in absolute value); `other` is any
other value (a fractional or larger number, an array, an object), truthy and
printed as `text`. -/
inductive JsValue where
  | undefined
  | null
  | bool (b : Bool)
  | int (n : Int)
  | str (s : String)
  | other (text : String)
  deriving DecidableEq

/-- The value is truthy, that is `!value` is false. -/
def JsValue.truthy : JsValue → Bool
  | .undefined => false
  | .null => false
  | .bool b => b
  | .int n => decide (n ≠ 0)
  | .str s => decide (s ≠ "")
  | .other _ => true

/-- The string `ToString(value)`, which `parseInt` starts from. -/
def JsValue.toStr : JsValue → String
  | .undefined => "undefined"
  | .null => "null"
  | .bool true => "true"
  | .bool false => "false"
  | .int n => toString n
  | .str s => s
  | .other text => text

/-- The white space of JavaScript, for `\s` in a regular expression and for the
trimming `parseInt` does: TAB, LF, VT, FF, CR, SP, NBSP, the Unicode space
separators, LS, PS and ZWNBSP. -/
def isWhiteSpace (c : Char) : Bool :=
  c.toNat ∈ [9, 10, 11, 12, 13, 32, 160, 5760, 8232, 8233, 8239, 8287, 12288, 65279] ||
    (8192 ≤ c.toNat && c.toNat ≤ 8202)

/-- The value of a character as a digit, letters counting from 10. -/
def digitValue (c : Char) : Option Nat :=
  if '0' ≤ c ∧ c ≤ '9' then some (c.toNat - '0'.toNat)
  else if 'a' ≤ c ∧ c ≤ 'z' then some (c.toNat - 'a'.toNat + 10)
  else if 'A' ≤ c ∧ c ≤ 'Z' then some (c.toNat - 'A'.toNat + 10)
  else none

/-- The digits of the longest leading run of radix-`radix` digits. -/
def radixDigits (radix : Nat) : List Char → List Nat
  | [] => []
  | c :: cs =>
    match digitValue c with
    | some d => if d < radix then d :: radixDigits radix cs else []
    | none => []

/-- A JavaScript number as `parseInt` returns it: `NaN`, an integer-valued
double (`-0` counts as 0), `Infinity` or `-Infinity`. -/
inductive JsNumber where
  | nan
  | finite (n : Int)
  | posInfinity
  | negInfinity
  deriving DecidableEq

/-- `isNaN(number)`. -/
def JsNumber.isNaN : JsNumber → Bool
  | .nan => true
  | _ => false

/-- `number <= 0`. -/
def JsNumber.leZero : JsNumber → Bool
  | .nan => false
  | .finite n => decide (n ≤ 0)
  | .posInfinity => false
  | .negInfinity => true

/-- How many times a number has to be halved to get below `2^53`, counting at
most `fuel` halvings: for `n < 2^(53 + fuel)` the number of bits of `n` beyond
the 53 a double keeps. -/
def excessBits : Nat → Nat → Nat
  | 0, _ => 0
  | fuel + 1, n => if n < 2 ^ 53 then 0 else excessBits fuel (n / 2) + 1

/-- The IEEE 754 double nearest to a natural number, ties going to the even
significand; `none` when the rounded value is `2^1024` or more, which a double
holds as `Infinity`.  Below `2^53` every natural number is a double. -/
def roundToDouble (n : Nat) : Option Nat :=
  if n < 2 ^ 53 then some n
  else if 2 ^ 1024 ≤ n then none
  else
    let e := excessBits 1024 n
    let q := n / 2 ^ e
    let r := n % 2 ^ e
    let q1 := if 2 ^ e < 2 * r ∨ (2 * r = 2 ^ e ∧ q % 2 = 1) then q + 1 else q
    if q1 * 2 ^ e < 2 ^ 1024 then some (q1 * 2 ^ e) else none

/-- `parseInt(string)` without a radix: leading white space is skipped, a sign
is read, `0x` or `0X` selects radix 16, the longest run of digits is the value,
rounded to a double; no digit gives `NaN`. -/
def parseInt (input : String) : JsNumber :=
  let s := input.data.dropWhile isWhiteSpace
  let sign : Int := match s with
    | '-' :: _ => -1
    | _ => 1
  let s := match s with
    | '-' :: r => r
    | '+' :: r => r
    | _ => s
  let radix : Nat := match s with
    | '0' :: 'x' :: _ => 16
    | '0' :: 'X' :: _ => 16
    | _ => 10
  let s := match s with
    | '0' :: 'x' :: r => r
    | '0' :: 'X' :: r => r
    | _ => s
  match radixDigits radix s with
  | [] => .nan
  | d :: ds =>
    match roundToDouble ((d :: ds).foldl (fun acc x => acc * radix + x) 0) with
    | some value => .finite (sign * value)
    | none => if sign = -1 then .negInfinity else .posInfinity

/-- The characters start with the pattern. -/
def startsWithChars : List Char → List Char → Bool
  | _, [] => true
  | [], _ :: _ => false
  | c :: cs, q :: qs => c == q && startsWithChars cs qs

/-- The pattern occurs somewhere in the characters. -/
def includesChars : List Char → List Char → Bool
  | [], pattern => pattern.isEmpty
  | c :: cs, pattern => startsWithChars (c :: cs) pattern || includesChars cs pattern

/-- `text.includes(pattern)`. -/
def includes (text pattern : String) : Bool :=
  includesChars text.data pattern.data

/-- `number.replace(/\s+/g, '')`: every white space character removed. -/
def stripWhiteSpace (number : String) : String :=
  String.mk (number.data.filter fun c => !isWhiteSpace c)

/-- Greedy `\d{0,n}`: the number of leading decimal digits read, at most `n`,
and the rest of the input. -/
def takeDigits : Nat → List Char → Nat × List Char
  | 0, cs => (0, cs)
  | _ + 1, [] => (0, [])
  | n + 1, c :: cs =>
    if c.isDigit then ((takeDigits n cs).1 + 1, (takeDigits n cs).2) else (0, c :: cs)

/-- `/^\d{13,19}$/.test(cardNumber)`: at most 19 digits are read from the start,
at least 13 must have been read and the end of the input reached. -/
def isCardNumber (cardNumber : String) : Bool :=
  13 ≤ (takeDigits 19 cardNumber.data).1 && (takeDigits 19 cardNumber.data).2.isEmpty

/-- `cardNumber.slice(-4)`: the last 4 characters (all of them if fewer). -/
def sliceLast4 (cardNumber : String) : String :=
  String.mk (cardNumber.data.drop (cardNumber.data.length - 4))

/-! ## The controllers -/

/-- The JSON body of a response. -/
inductive Body where
  | message (message : String)
  | messageBooking (message : String) (booking : Option JoinedBooking)
  | booking (booking : JoinedBooking)
  | messagePayment (message : String) (payment : Option PaymentRow)
  | statusPending (bookingStatus : BookingStatus) (paymentStatus : String)
  | statusPayment (bookingStatus : BookingStatus) (payment : PaymentRow)
  deriving DecidableEq

/-- A response: `res.status(status).json(body)`. -/
structure Response where
  status : Nat
  body : Body
  deriving DecidableEq

/-- A `numSeats` argument that got past the validation of `createBooking`: an
integer-valued double or `Infinity`. -/
inductive SeatsArgument where
  | count (n : Int)
  | infinity
  deriving DecidableEq

/-- The JavaScript number the argument is. -/
def SeatsArgument.toNumber : SeatsArgument → JsNumber
  | .count n => .finite n
  | .infinity => .posInfinity

/-- The validation of `createBooking`: `none` when the request is answered 400
without a call of the model (`!flightId || !numSeats ||
isNaN(parseInt(flightId)) || isNaN(parseInt(numSeats)) || parseInt(numSeats) <=
0`), otherwise the arguments `parseInt(flightId)` and `parseInt(numSeats)` that
`Booking.create` is called with. -/
def bookingController.createBookingArgs (flightId numSeats : JsValue) :
    Option (JsNumber × SeatsArgument) :=
  if !flightId.truthy || !numSeats.truthy || (parseInt flightId.toStr).isNaN ||
      (parseInt numSeats.toStr).isNaN || (parseInt numSeats.toStr).leZero then none
  else
    match parseInt numSeats.toStr with
    | .finite n => some (parseInt flightId.toStr, .count n)
    | .posInfinity => some (parseInt flightId.toStr, .infinity)
    | .nan => none
    | .negInfinity => none

/-- `Booking.create` called with `numSeats = Infinity`: the flight row is
selected as usual and `flight.available_seats < numSeats` holds whatever the
row, so the call throws before any write. -/
def Booking.createUnbounded (s : Store) (flightId : Int) :
    Store × Except String (Option JoinedBooking) :=
  match s.flights.filter fun f => f.flight_id = flightId with
  | [] => (s, .error "Flight not found.")
  | _ :: _ => (s, .error "Not enough available seats on this flight.")

/-- `Booking.create(userId, flightId, numSeats)` on the numbers the controller
passes.  No `flight_id` equals a number that is not a finite integer, so for
such a `flightId` the SELECT gives no row. -/
def bookingController.callCreate (s : Store) (now : Nat) (userId : Int) :
    JsNumber → SeatsArgument → Store × Except String (Option JoinedBooking)
  | .finite flightId, .count numSeats => Booking.create s now userId flightId numSeats
  | .finite flightId, .infinity => Booking.createUnbounded s flightId
  | _, _ => (s, .error "Flight not found.")

/-- The `catch` block of `createBooking`, from `error.message`. -/
def bookingController.createBookingOnError (message : String) : Response :=
  if includes message "Not enough available seats" || includes message "Flight not found" then
    ⟨400, .message message⟩
  else
    ⟨500, .message "Server error during booking creation."⟩

/-- `createBooking` for the authenticated user `userId` and the body fields
`flightId`, `numSeats`, at clock reading `now`. -/
def bookingController.createBooking (s : Store) (now : Nat) (userId : Int)
    (flightId numSeats : JsValue) : Store × Response :=
  match bookingController.createBookingArgs flightId numSeats with
  | none =>
    (s, ⟨400, .message "Invalid input: flightId and a positive number of seats are required."⟩)
  | some (f, n) =>
    match bookingController.callCreate s now userId f n with
    | (s1, .ok newBooking) =>
      (s1, ⟨201, .messageBooking "Booking created successfully (pending payment)." newBooking⟩)
    | (s1, .error message) => (s1, bookingController.createBookingOnError message)

/-- `getBookingById` for the authenticated user `userId` and the route
parameter `booking_id`. -/
def bookingController.getBookingById (s : Store) (userId : Int) (booking_id : String) :
    Response :=
  if booking_id = "" then ⟨400, .message "Invalid booking ID provided."⟩
  else
    match parseInt booking_id with
    | .nan => ⟨400, .message "Invalid booking ID provided."⟩
    | .finite id =>
      match Booking.findById s id with
      | none => ⟨404, .message "Booking not found."⟩
      | some booking =>
        if booking.user_id ≠ userId then
          ⟨403, .message "Not authorized to view this booking."⟩
        else
          ⟨200, .booking booking⟩
    -- no `booking_id` equals `Infinity` or `-Infinity`: `findById` gives null
    | .posInfinity => ⟨404, .message "Booking not found."⟩
    | .negInfinity => ⟨404, .message "Booking not found."⟩

/-- The `catch` block of `cancelBooking`, from `error.message`. -/
def bookingController.cancelBookingOnError (message : String) : Response :=
  if includes message "not found" || includes message "authorized" ||
      includes message "already cancelled" then
    ⟨400, .message message⟩
  else
    ⟨500, .message "Server error during booking cancellation."⟩

/-- `cancelBooking` for the authenticated user `userId` and the route parameter
`booking_id`. -/
def bookingController.cancelBooking (s : Store) (userId : Int) (booking_id : String) :
    Store × Response :=
  if booking_id = "" then (s, ⟨400, .message "Invalid booking ID provided."⟩)
  else
    match parseInt booking_id with
    | .nan => (s, ⟨400, .message "Invalid booking ID provided."⟩)
    | .finite id =>
      match Booking.cancel s id userId with
      | (s1, .ok _) => (s1, ⟨200, .message "Booking cancelled successfully."⟩)
      | (s1, .error message) => (s1, bookingController.cancelBookingOnError message)
    -- no `booking_id` equals `Infinity` or `-Infinity`: `findById` gives null
    -- and `Booking.cancel` throws
    | .posInfinity => (s, bookingController.cancelBookingOnError "Booking not found.")
    | .negInfinity => (s, bookingController.cancelBookingOnError "Booking not found.")

/-- The validation of `processMockPayment`, up to `cardNumberLast4`: the 400
response, or the parsed booking id, the payment method and the last 4
characters of the stripped card number.  `cardNumber` is `cardDetails.number`
when that is a string, `none` when `cardDetails` or its `number` is missing. -/
def paymentController.checkInput (bookingId paymentMethod : JsValue)
    (cardNumber : Option String) : Except Response (JsNumber × String × String) :=
  match cardNumber with
  | none => .error ⟨400, .message
      "Missing required payment details: bookingId, paymentMethod, cardDetails (with number)."⟩
  | some number =>
    if !bookingId.truthy || !paymentMethod.truthy || number = "" then
      .error ⟨400, .message
        "Missing required payment details: bookingId, paymentMethod, cardDetails (with number)."⟩
    else
      if (parseInt bookingId.toStr).isNaN then
        .error ⟨400, .message "Invalid booking ID."⟩
      else
        match paymentMethod with
        | .str method =>
          if method = "credit_card" ∨ method = "debit_card" then
            if isCardNumber (stripWhiteSpace number) then
              .ok (parseInt bookingId.toStr, method, sliceLast4 (stripWhiteSpace number))
            else
              .error ⟨400, .message "Invalid card number format."⟩
          else
            .error ⟨400, .message "Invalid payment method."⟩
        | _ => .error ⟨400, .message "Invalid payment method."⟩

/-- The `catch` block of `processMockPayment`, from `error.message`. -/
def paymentController.processMockPaymentOnError (message : String) : Response :=
  if includes message "not found" || includes message "status is already" then
    ⟨400, .message message⟩
  else
    ⟨500, .message "Server error during mock payment processing."⟩

/-- `processMockPayment` (the controller) for the authenticated user `userId`
and the body fields, at clock reading `now`. -/
def paymentController.processMockPayment (s : Store) (now : Nat) (userId : Int)
    (bookingId paymentMethod : JsValue) (cardNumber : Option String) : Store × Response :=
  match paymentController.checkInput bookingId paymentMethod cardNumber with
  | .error response => (s, response)
  | .ok (.finite id, method, cardNumberLast4) =>
    match Booking.findById s id with
    | none => (s, ⟨404, .message "Booking not found."⟩)
    | some booking =>
      if booking.user_id ≠ userId then
        (s, ⟨403, .message "Not authorized to pay for this booking."⟩)
      else if booking.status ≠ .pending_payment then
        (s, ⟨400, .message ("Booking status is already " ++ booking.status.toString ++
          ". Payment cannot be processed.")⟩)
      else
        match Payment.processMockPayment s now id method cardNumberLast4 booking.total_price with
        | (s1, .ok payment) =>
          (s1, ⟨200, .messagePayment "Mock payment successful. Booking confirmed." payment⟩)
        | (s1, .error message) => (s1, paymentController.processMockPaymentOnError message)
  -- no `booking_id` equals a number that is not a finite integer: `findById`
  -- gives null
  | .ok (_, _, _) => (s, ⟨404, .message "Booking not found."⟩)

/-- `getPaymentStatus` for the authenticated user `userId` and the route
parameter `booking_id`. -/
def paymentController.getPaymentStatus (s : Store) (userId : Int) (booking_id : String) :
    Response :=
  if booking_id = "" then ⟨400, .message "Invalid booking ID provided."⟩
  else
    match parseInt booking_id with
    | .nan => ⟨400, .message "Invalid booking ID provided."⟩
    | .finite id =>
      match Booking.findById s id with
      | none => ⟨404, .message "Booking not found."⟩
      | some booking =>
        if booking.user_id ≠ userId then
          ⟨403, .message "Not authorized to view payment for this booking."⟩
        else
          match Payment.findByBookingId s id with
          | none => ⟨200, .statusPending booking.status "pending"⟩
          | some payment => ⟨200, .statusPayment booking.status payment⟩
    -- no `booking_id` equals `Infinity` or `-Infinity`: `findById` gives null
    | .posInfinity => ⟨404, .message "Booking not found."⟩
    | .negInfinity => ⟨404, .message "Booking not found."⟩

/-! ## Stating aids -/

/-- The flight row `SELECT ... FROM FLIGHTS WHERE flight_id = ?` puts first:
`flightRows[0]`, or `none` when `flightRows.length === 0`. -/
def Store.flight? (s : Store) (flightId : Int) : Option FlightRow :=
  (s.flights.filter fun f => f.flight_id = flightId).head?

/-- The booking row `SELECT ... FROM BOOKINGS WHERE booking_id = ?` puts first. -/
def Store.booking? (s : Store) (bookingId : Int) : Option BookingRow :=
  (s.bookings.filter fun b => b.booking_id = bookingId).head?

/-- A flight SFO to JFK with 5 seats, 3 of them available, at 200.00. -/
def flightThreeSeats : FlightRow :=
  ⟨1, "AN100", "SFO", "JFK", 1000, 2000, 20000, 5, 3⟩

/-- The store of the scenario "10 seats on a flight with 3 available". -/
def storeThreeSeats : Store :=
  { airports := [⟨"SFO", "San Francisco Intl", "San Francisco", "USA"⟩,
                 ⟨"JFK", "John F. Kennedy Intl", "New York", "USA"⟩],
    flights := [flightThreeSeats],
    bookings := [], payments := [], nextBookingId := 1, nextPaymentId := 1 }

/-- A store with one pending booking (owner 7) of 2 seats on flight 1. -/
def storeOnePending : Store :=
  { storeThreeSeats with
    bookings := [⟨1, 7, 1, 2, 40000, .pending_payment, 500⟩], nextBookingId := 2 }

/-- A store whose only booking (owner 7, pending) refers to flight 99, of which
`FLIGHTS` has no row. -/
def storeOrphan : Store :=
  { storeThreeSeats with
    bookings := [⟨1, 7, 99, 2, 40000, .pending_payment, 500⟩], nextBookingId := 2 }

/-- AUTO_INCREMENT: every `booking_id` in the table is below the counter, so
the next `insertId` is new. -/
def Store.bookingIdsFresh (s : Store) : Prop :=
  ∀ r ∈ s.bookings, r.booking_id < s.nextBookingId

instance (s : Store) : Decidable s.bookingIdsFresh := by
  unfold Store.bookingIdsFresh; infer_instance

/-- AUTO_INCREMENT: every `payment_id` in the table is below the counter. -/
def Store.paymentIdsFresh (s : Store) : Prop :=
  ∀ r ∈ s.payments, r.payment_id < s.nextPaymentId

instance (s : Store) : Decidable s.paymentIdsFresh := by
  unfold Store.paymentIdsFresh; infer_instance

/-- The store a committed `Booking.create` leaves: the inserted row, the counter
moved on, the seats taken off every `FLIGHTS` row with the id. -/
def Booking.createdStore (s : Store) (now : Nat) (userId flightId numSeats price : Int) :
    Store :=
  { s with
    bookings := s.bookings ++ [Booking.insertedRow s now userId flightId numSeats
      (price * numSeats)],
    nextBookingId := s.nextBookingId + 1,
    flights := s.flights.map fun f =>
      if f.flight_id = flightId then
        { f with available_seats := f.available_seats - numSeats } else f }

/-- The store a committed `Booking.cancel` leaves: every `BOOKINGS` row with the
id set to cancelled, the seats put back on every `FLIGHTS` row with the flight id. -/
def Booking.cancelledStore (s : Store) (bookingId flightId numSeats : Int) : Store :=
  { s with
    bookings := s.bookings.map fun b =>
      if b.booking_id = bookingId then { b with status := .cancelled } else b,
    flights := s.flights.map fun f =>
      if f.flight_id = flightId then
        { f with available_seats := f.available_seats + numSeats } else f }

/-- The scenario store: flight 1, SFO to JFK, 5 seats all available, at 200.00. -/
def storeFiveSeats : Store :=
  { storeThreeSeats with
    flights := [⟨1, "AN100", "SFO", "JFK", 1000, 2000, 20000, 5, 5⟩] }

/-- The store a committed `Payment.processMockPayment` leaves: the inserted
payment row, the counter moved on, every `BOOKINGS` row with the id confirmed. -/
def Payment.paidStore (s : Store) (now : Nat) (bookingId : Int)
    (paymentMethod cardNumberLast4 : String) (amount : Int) : Store :=
  { s with
    payments := s.payments ++
      [Payment.insertedRow s now bookingId paymentMethod cardNumberLast4 amount],
    nextPaymentId := s.nextPaymentId + 1,
    bookings := s.bookings.map fun r =>
      if r.booking_id = bookingId then { r with status := .confirmed } else r }

/-! ### Sequences of calls -/

/-- One call on the store: a model method with its arguments, or a change of the
`FLIGHTS` table made outside these models (a new price, say). -/
inductive Op where
  | create (now : Nat) (userId flightId numSeats : Int)
  | cancel (bookingId userId : Int)
  | pay (now : Nat) (bookingId : Int) (paymentMethod cardNumberLast4 : String) (amount : Int)
  | updateStatus (bookingId : Int) (status : BookingStatus)
  | setFlights (flights : List FlightRow)

/-- The store after one call, successful or failed. -/
def step (s : Store) : Op → Store
  | .create now userId flightId numSeats => (Booking.create s now userId flightId numSeats).1
  | .cancel bookingId userId => (Booking.cancel s bookingId userId).1
  | .pay now bookingId method last4 amount =>
      (Payment.processMockPayment s now bookingId method last4 amount).1
  | .updateStatus bookingId status => (Booking.updateStatus s bookingId status).1
  | .setFlights flights => { s with flights := flights }

/-- The store after a finite sequence of calls, one after another. -/
def run (s : Store) (ops : List Op) : Store :=
  ops.foldl step s

/-- A `Booking.create` with `numSeats > 0` or a `Booking.cancel`. -/
def Op.isSeatOp : Op → Prop
  | .create _ _ _ numSeats => 0 < numSeats
  | .cancel _ _ => True
  | _ => False

/-- A `Booking.create`, `Booking.cancel` or `Payment.processMockPayment`. -/
def Op.isLifecycle : Op → Prop
  | .create _ _ _ _ => True
  | .cancel _ _ => True
  | .pay _ _ _ _ _ => True
  | _ => False

/-- Every flight satisfies `0 ≤ available_seats ≤ total_seats`. -/
def Store.seatBounds (s : Store) : Prop :=
  ∀ f ∈ s.flights, 0 ≤ f.available_seats ∧ f.available_seats ≤ f.total_seats

instance (s : Store) : Decidable s.seatBounds := by
  unfold Store.seatBounds; infer_instance

/-- The seats held on a flight: the sum of `num_seats` over the bookings on it
that are not cancelled. -/
def heldSeats (bookings : List BookingRow) (flightId : Int) : Int :=
  ((bookings.filter fun b => b.flight_id = flightId ∧ b.status ≠ .cancelled).map
    fun b => b.num_seats).sum

/-- The seat accounts are in order: `flight_id` is a key of `FLIGHTS`, no
booking has a negative `num_seats`, and for every flight the available seats are
not negative and, together with the seats held by its open bookings, do not
exceed `total_seats`. -/
def Store.seatsAccounted (s : Store) : Prop :=
  (s.flights.map fun f => f.flight_id).Nodup ∧
  (∀ b ∈ s.bookings, 0 ≤ b.num_seats) ∧
  ∀ f ∈ s.flights, 0 ≤ f.available_seats ∧
    f.available_seats + heldSeats s.bookings f.flight_id ≤ f.total_seats

instance (s : Store) : Decidable s.seatsAccounted := by
  unfold Store.seatsAccounted; infer_instance

/-- A store within the seat bounds whose accounts are not in order: all 5 seats
of the flight are available although a pending booking holds 2 of them. -/
def storeUnaccounted : Store :=
  { storeFiveSeats with
    bookings := [⟨1, 7, 1, 2, 40000, .pending_payment, 500⟩], nextBookingId := 2 }

/-- A run of `Booking.create` calls, each for 1 seat on the same flight, one
after another (the order the lock on the flight row imposes); a call is its
clock reading and its user.  Gives the final store and the outcome of each call. -/
def createEach (s : Store) (flightId : Int) :
    List (Nat × Int) → Store × List (Except String (Option JoinedBooking))
  | [] => (s, [])
  | (now, userId) :: rest =>
    let r := Booking.create s now userId flightId 1
    let rs := createEach r.1 flightId rest
    (rs.1, r.2 :: rs.2)

/-- The columns of a booking row that are fixed when it is inserted:
`(booking_id, user_id, flight_id, num_seats, total_price)`. -/
def BookingRow.frozenPart (b : BookingRow) : Int × Int × Int × Int × Int :=
  (b.booking_id, b.user_id, b.flight_id, b.num_seats, b.total_price)

/-- The three edges of the booking status machine. -/
def statusEdge (a b : BookingStatus) : Prop :=
  (a = .pending_payment ∧ b = .confirmed) ∨
  (a = .pending_payment ∧ b = .cancelled) ∨
  (a = .confirmed ∧ b = .cancelled)

/-- The edges one call may take: `processMockPayment` the edge
pending_payment to confirmed, `cancel` the two edges into cancelled, `create`
none. -/
def Op.moves : Op → BookingStatus → BookingStatus → Prop
  | .pay _ _ _ _ _, a, b => a = .pending_payment ∧ b = .confirmed
  | .cancel _ _, a, b => (a = .pending_payment ∨ a = .confirmed) ∧ b = .cancelled
  | _, _, _ => False

/-- The keys of `BOOKINGS`: `booking_id` is unique and AUTO_INCREMENT. -/
def Store.bookingKeys (s : Store) : Prop :=
  (s.bookings.map fun b => b.booking_id).Nodup ∧ s.bookingIdsFresh

instance (s : Store) : Decidable s.bookingKeys := by
  unfold Store.bookingKeys; infer_instance

/-- A store with one cancelled booking (owner 7) of 2 seats on flight 1. -/
def storeOneCancelled : Store :=
  { storeFiveSeats with
    bookings := [⟨1, 7, 1, 2, 40000, .cancelled, 500⟩], nextBookingId := 2 }

/-- A store with two pending bookings, of users 7 and 8, on flight 1. -/
def storeTwoPending : Store :=
  { storeThreeSeats with
    flights := [⟨1, "AN100", "SFO", "JFK", 1000, 2000, 20000, 5, 2⟩],
    bookings := [⟨1, 7, 1, 2, 40000, .pending_payment, 500⟩,
                 ⟨2, 8, 1, 1, 20000, .pending_payment, 600⟩],
    nextBookingId := 3 }

/-- The payment rows are in order: every row has status "success", no booking
id has more than one payment row, and no booking that has a payment row is in
`pending_payment`. -/
def Store.paymentsInOrder (s : Store) : Prop :=
  (∀ p ∈ s.payments, p.status = "success") ∧
  (∀ bookingId : Int, (s.payments.filter fun p => p.booking_id = bookingId).length ≤ 1) ∧
  (∀ p ∈ s.payments, ∀ b ∈ s.bookings, b.booking_id = p.booking_id →
    b.status ≠ .pending_payment)

/-- What the calls keep true on the way: the payment rows are in order, the
booking ids are below the AUTO_INCREMENT counter, and so are the booking ids the
payment rows refer to. -/
def Store.paymentsTracked (s : Store) : Prop :=
  s.paymentsInOrder ∧ s.bookingIdsFresh ∧
  ∀ p ∈ s.payments, p.booking_id < s.nextBookingId

/-- The seat ledger: for every flight row, in table order, its id and the sum
`available_seats + (seats held by its bookings that are not cancelled)`. -/
def Store.seatLedger (s : Store) : List (Int × Int) :=
  s.flights.map fun f => (f.flight_id, f.available_seats + heldSeats s.bookings f.flight_id)

/-- The acceptance condition in the words of the specification, to compare
`isCardNumber` with: all white space removed, the number consists of between 13
and 19 decimal digits and nothing else. -/
def cardNumberAccepted (number : String) : Prop :=
  13 ≤ (number.data.filter fun c => !isWhiteSpace c).length ∧
  (number.data.filter fun c => !isWhiteSpace c).length ≤ 19 ∧
  ∀ c ∈ number.data.filter (fun c => !isWhiteSpace c), c.isDigit = true

instance (number : String) : Decidable (cardNumberAccepted number) := by
  unfold cardNumberAccepted; infer_instance

/-- A string of 309 nines: a number beyond the range of a double. -/
def manyNines : String :=
  String.mk (List.replicate 309 '9')

/-! ## Theorems -/

theorem head?_eq_none_imp {α : Type} {l : List α} (h : l.head? = none) : l = [] := by
  cases l with
  | nil => rfl
  | cons a t => simp at h

theorem head?_eq_some_imp {α : Type} {l : List α} {a : α} (h : l.head? = some a) :
    ∃ t, l = a :: t := by
  cases l with
  | nil => simp at h
  | cons b t => exact ⟨t, by simp at h; rw [h]⟩

theorem create_flight_missing (s : Store) (now : Nat) (userId flightId numSeats : Int)
    (h : s.flight? flightId = none) :
    Booking.create s now userId flightId numSeats = (s, .error "Flight not found.") := by
  have h0 := head?_eq_none_imp h
  simp only [Booking.create, h0]

theorem create_seats_short (s : Store) (now : Nat) (userId flightId numSeats : Int)
    (f : FlightRow) (h : s.flight? flightId = some f) (hlt : f.available_seats < numSeats) :
    Booking.create s now userId flightId numSeats =
      (s, .error "Not enough available seats on this flight.") := by
  obtain ⟨t, ht⟩ := head?_eq_some_imp h
  simp only [Booking.create, ht, hlt, if_true]

/-- C7. Create is all-or-nothing on its two failure paths: with `numSeats > 0`,
when no flight row has the id the call throws "Flight not found.", when the
flight row has fewer available seats than requested it throws "Not enough
available seats on this flight.", and in both cases the store after the call is
the store before it. -/
theorem create_all_or_nothing (s : Store) (now : Nat) (userId flightId numSeats : Int)
    (_hn : 0 < numSeats) :
    (s.flight? flightId = none →
      Booking.create s now userId flightId numSeats = (s, .error "Flight not found.")) ∧
    (∀ f, s.flight? flightId = some f → f.available_seats < numSeats →
      Booking.create s now userId flightId numSeats =
        (s, .error "Not enough available seats on this flight.")) :=
  ⟨create_flight_missing s now userId flightId numSeats,
   create_seats_short s now userId flightId numSeats⟩

/-- C7, witness: 10 seats requested on a flight with 3 available seats leaves
the store (3 seats, no booking row) as it was; an unknown flight id likewise. -/
theorem create_all_or_nothing_witness :
    (0 : Int) < 10 ∧
    storeThreeSeats.flight? 1 = some flightThreeSeats ∧
    Booking.create storeThreeSeats 0 7 1 10 =
      (storeThreeSeats, .error "Not enough available seats on this flight.") ∧
    (Booking.create storeThreeSeats 0 7 1 10).1.bookings = [] ∧
    (Booking.create storeThreeSeats 0 7 1 10).1.flights.map (fun f => f.available_seats) = [3] ∧
    Booking.create storeThreeSeats 0 7 42 10 = (storeThreeSeats, .error "Flight not found.") :=
  have h := create_all_or_nothing storeThreeSeats 0 7 1 10 (by decide)
  have h1 := h.2 flightThreeSeats (by decide) (by decide)
  have h2 := (create_all_or_nothing storeThreeSeats 0 7 42 10 (by decide)).1 (by decide)
  ⟨by decide, by decide, h1, by rw [h1]; rfl, by rw [h1]; rfl, h2⟩

/-! ### Reading a booking -/

theorem joinBooking_fields (s : Store) (b : BookingRow) (j : JoinedBooking)
    (hj : j ∈ joinBooking s b) :
    j.booking_id = b.booking_id ∧ j.user_id = b.user_id ∧ j.status = b.status ∧
    j.num_seats = b.num_seats ∧ j.total_price = b.total_price ∧
    j.flight_id = b.flight_id := by
  simp only [joinBooking, List.mem_flatMap, List.mem_filter, List.mem_map] at hj
  obtain ⟨f, ⟨_, hf⟩, dep, _, arr, _, rfl⟩ := hj
  have hf' : f.flight_id = b.flight_id := by simpa using hf
  simp [joinedRow, hf']

theorem findById_of_first (s : Store) (bookingId : Int) (b : BookingRow)
    (hb : s.booking? bookingId = some b) (hj : joinBooking s b ≠ []) :
    ∃ j, Booking.findById s bookingId = some j ∧ j ∈ joinBooking s b := by
  obtain ⟨t, ht⟩ := head?_eq_some_imp hb
  cases hjb : joinBooking s b with
  | nil => exact absurd hjb hj
  | cons j js =>
    refine ⟨j, ?_, by simp⟩
    simp [Booking.findById, ht, hjb]

/-- Cancel by a non-owner when `findById` loads the booking (its row, with the
flight and airport rows the query joins): when the caller is not its owner,
`Booking.cancel` throws "User not authorized to cancel this booking." whatever
the status, and the store after the call is the store before it. -/
theorem cancel_non_owner_rejected (s : Store) (bookingId userId : Int) (b : BookingRow)
    (hb : s.booking? bookingId = some b) (hj : joinBooking s b ≠ [])
    (hu : b.user_id ≠ userId) :
    Booking.cancel s bookingId userId =
      (s, .error "User not authorized to cancel this booking.") := by
  obtain ⟨j, hfind, hmem⟩ := findById_of_first s bookingId b hb hj
  have hju : j.user_id ≠ userId := by
    rw [(joinBooking_fields s b j hmem).2.1]; exact hu
  simp only [Booking.cancel, hfind, hju, ne_eq, not_false_eq_true, if_true]

/-- User 8 cannot cancel the pending booking of user 7. -/
theorem cancel_non_owner_rejected_witness :
    Booking.cancel storeOnePending 1 8 =
      (storeOnePending, .error "User not authorized to cancel this booking.") :=
  cancel_non_owner_rejected storeOnePending 1 8 ⟨1, 7, 1, 2, 40000, .pending_payment, 500⟩
    (by decide) (by decide) (by decide)

/-- C8, the code at the failing input: booking 1 of user 7 exists, its flight
row 99 does not; `Booking.cancel(1, 8)` by user 8, who is not the owner, throws
"Booking not found." where the claim says "User not authorized to cancel this
booking."; the store is unchanged. -/
theorem cancel_non_owner_orphan_not_found :
    storeOrphan.booking? 1 = some ⟨1, 7, 99, 2, 40000, .pending_payment, 500⟩ ∧
    Booking.findById storeOrphan 1 = none ∧
    Booking.cancel storeOrphan 1 8 = (storeOrphan, .error "Booking not found.") := by
  decide

/-- C10, the code at the failing input: the booking row is there, pending and
owned by the caller, its flight row is gone; `Booking.cancel` throws "Booking
not found." and nothing is committed, the booking stays pending. -/
theorem cancel_orphan_booking_not_found :
    storeOrphan.booking? 1 = some ⟨1, 7, 99, 2, 40000, .pending_payment, 500⟩ ∧
    storeOrphan.flight? 99 = none ∧
    Booking.findById storeOrphan 1 = none ∧
    Booking.cancel storeOrphan 1 7 = (storeOrphan, .error "Booking not found.") := by
  decide

/-! ### Payment -/

theorem filter_map_setStatus (bs : List BookingRow) (bookingId : Int) (st : BookingStatus) :
    (bs.map fun b => if b.booking_id = bookingId then { b with status := st } else b).filter
        (fun b => b.booking_id = bookingId) =
      (bs.filter fun b => b.booking_id = bookingId).map fun b => { b with status := st } := by
  induction bs with
  | nil => rfl
  | cons a t ih =>
    by_cases h : a.booking_id = bookingId
    · simp only [List.map_cons, h, if_true, List.filter_cons, decide_True, ih]
    · have h1 : (if a.booking_id = bookingId then { a with status := st } else a) = a := by
        simp [h]
      simp only [List.map_cons, h1, List.filter_cons, h, decide_False, ih]
      simp [h]

/-- The successful path of `processMockPayment`, spelled out: the booking row
the SELECT puts first is pending. -/
theorem processMockPayment_pending (s : Store) (now : Nat) (bookingId : Int)
    (method last4 : String) (amount : Int) (b : BookingRow)
    (hb : s.booking? bookingId = some b) (hp : b.status = .pending_payment) :
    Payment.processMockPayment s now bookingId method last4 amount =
      ({ s with
          payments := s.payments ++ [Payment.insertedRow s now bookingId method last4 amount],
          nextPaymentId := s.nextPaymentId + 1,
          bookings := s.bookings.map fun r =>
            if r.booking_id = bookingId then { r with status := .confirmed } else r },
       .ok ((s.payments ++ [Payment.insertedRow s now bookingId method last4 amount]).filter
              fun q => q.payment_id = s.nextPaymentId).head?) := by
  obtain ⟨t, ht⟩ := head?_eq_some_imp hb
  simp only [Payment.processMockPayment, Booking.updateStatus, ht, hp, ne_eq,
    not_true_eq_false, if_false, List.length_cons, Nat.add_one_ne_zero]
  rfl

/-- C3. Payment is once-only: for a booking in `pending_payment` the first
`processMockPayment` succeeds, and a second call on the same booking, with any
clock reading, method, last-4 and amount, throws "Booking status is already
confirmed." and leaves the whole store as the first call left it: the payments
table holds the first call's row and no other new one, the booking is
`confirmed`, the flights are those before the first call. -/
theorem payment_once_only (s : Store) (bookingId : Int) (b : BookingRow)
    (hb : s.booking? bookingId = some b) (hp : b.status = .pending_payment)
    (now1 : Nat) (method1 last41 : String) (amount1 : Int)
    (now2 : Nat) (method2 last42 : String) (amount2 : Int) :
    ∃ s1 pay row,
      Payment.processMockPayment s now1 bookingId method1 last41 amount1 = (s1, .ok pay) ∧
      Payment.processMockPayment s1 now2 bookingId method2 last42 amount2 =
        (s1, .error "Booking status is already confirmed.") ∧
      s1.payments = s.payments ++ [row] ∧
      s1.booking? bookingId = some { b with status := .confirmed } ∧
      s1.flights = s.flights := by
  obtain ⟨t, ht⟩ := head?_eq_some_imp hb
  refine ⟨_, _, _, processMockPayment_pending s now1 bookingId method1 last41 amount1 b hb hp,
    ?_, rfl, ?_, rfl⟩
  · simp only [Payment.processMockPayment, filter_map_setStatus, ht, List.map_cons]
    simp only [ne_eq, reduceCtorEq, not_false_eq_true, if_true]
    rfl
  · simp only [Store.booking?, filter_map_setStatus, ht, List.map_cons, List.head?_cons]

/-- C3, witness: paying the pending booking 1 twice. -/
theorem payment_once_only_witness :
    ∃ s1 pay row,
      Payment.processMockPayment storeOnePending 10 1 "credit_card" "4242" 40000
        = (s1, .ok pay) ∧
      Payment.processMockPayment s1 11 1 "debit_card" "0000" 1 =
        (s1, .error "Booking status is already confirmed.") ∧
      s1.payments = storeOnePending.payments ++ [row] ∧
      s1.booking? 1 = some ⟨1, 7, 1, 2, 40000, .confirmed, 500⟩ ∧
      s1.flights = storeOnePending.flights :=
  payment_once_only storeOnePending 1 ⟨1, 7, 1, 2, 40000, .pending_payment, 500⟩
    (by decide) (by decide) 10 "credit_card" "4242" 40000 11 "debit_card" "0000" 1

/-! ### Create, then cancel -/

/-- The committing path of `Booking.create`, spelled out: the flight row the
SELECT puts first has enough seats. -/
theorem create_enough_seats (s : Store) (now : Nat) (userId flightId numSeats : Int)
    (f : FlightRow) (hf : s.flight? flightId = some f)
    (hseats : numSeats ≤ f.available_seats) :
    Booking.create s now userId flightId numSeats =
      (Booking.createdStore s now userId flightId numSeats f.price,
       .ok (Booking.findById (Booking.createdStore s now userId flightId numSeats f.price)
          s.nextBookingId)) := by
  obtain ⟨t, ht⟩ := head?_eq_some_imp hf
  have hlt : ¬ f.available_seats < numSeats := not_lt.mpr hseats
  simp only [Booking.create, ht, hlt, if_false, List.length_cons, Nat.add_one_ne_zero]
  rfl

/-- What a successful `Booking.create` implies: it went down the committing
path. -/
theorem create_ok_inv (s s1 : Store) (now : Nat) (userId flightId numSeats : Int)
    (r : Option JoinedBooking)
    (h : Booking.create s now userId flightId numSeats = (s1, .ok r)) :
    ∃ f, s.flight? flightId = some f ∧ numSeats ≤ f.available_seats ∧
      s1 = Booking.createdStore s now userId flightId numSeats f.price ∧
      r = Booking.findById s1 s.nextBookingId := by
  cases hfl : s.flights.filter (fun f => f.flight_id = flightId) with
  | nil => simp [Booking.create, hfl] at h
  | cons f t =>
    have hf : s.flight? flightId = some f := by simp [Store.flight?, hfl]
    by_cases hlt : f.available_seats < numSeats
    · simp [Booking.create, hfl, hlt] at h
    · have hle := not_lt.mp hlt
      rw [create_enough_seats s now userId flightId numSeats f hf hle] at h
      simp only [Prod.mk.injEq, Except.ok.injEq] at h
      exact ⟨f, hf, hle, h.1.symm, by rw [← h.1]; exact h.2.symm⟩

theorem filter_fresh_append (bs : List BookingRow) (row : BookingRow)
    (h : ∀ r ∈ bs, r.booking_id ≠ row.booking_id) :
    (bs ++ [row]).filter (fun b => b.booking_id = row.booking_id) = [row] := by
  have h0 : bs.filter (fun b => b.booking_id = row.booking_id) = [] := by
    rw [List.filter_eq_nil_iff]
    intro a ha
    simpa using h a ha
  simp [List.filter_append, h0]

theorem map_restore_seats (fl : List FlightRow) (flightId numSeats : Int) :
    (fl.map fun f => if f.flight_id = flightId then
        { f with available_seats := f.available_seats - numSeats } else f).map
      (fun f => if f.flight_id = flightId then
        { f with available_seats := f.available_seats + numSeats } else f) = fl := by
  induction fl with
  | nil => rfl
  | cons a t ih =>
    rw [List.map_cons, List.map_cons, ih]
    by_cases h : a.flight_id = flightId
    · subst h
      cases a
      simp
    · simp [h]

/-- The committing path of `Booking.cancel`, spelled out: `findById` loads the
booking, the caller owns it and it is not cancelled. -/
theorem cancel_commits (s : Store) (bookingId userId : Int) (j : JoinedBooking)
    (hfind : Booking.findById s bookingId = some j) (hu : j.user_id = userId)
    (hst : j.status ≠ .cancelled) :
    Booking.cancel s bookingId userId =
      (Booking.cancelledStore s bookingId j.flight_id j.num_seats,
       .ok (s.bookings.filter fun b => b.booking_id = bookingId).length) := by
  have hne : (s.bookings.filter fun b => b.booking_id = bookingId).length ≠ 0 := by
    intro h0
    have hnil := List.length_eq_zero.mp h0
    simp [Booking.findById, hnil] at hfind
  simp only [Booking.cancel, hfind, hu, ne_eq, not_true_eq_false, if_false, hst,
    Booking.updateStatus, hne]
  rfl

/-- The row `findById` returns for the booking a committed create has just
inserted is built from that row. -/
theorem findById_created (s : Store) (now : Nat) (userId flightId numSeats price : Int)
    (hfresh : s.bookingIdsFresh) (b : JoinedBooking)
    (hb : Booking.findById (Booking.createdStore s now userId flightId numSeats price)
      s.nextBookingId = some b) :
    b.booking_id = s.nextBookingId ∧ b.user_id = userId ∧ b.status = .pending_payment ∧
    b.num_seats = numSeats ∧ b.total_price = price * numSeats ∧ b.flight_id = flightId := by
  have hfilter := filter_fresh_append s.bookings
    (Booking.insertedRow s now userId flightId numSeats (price * numSeats))
    (fun r hr => ne_of_lt (hfresh r hr))
  have hmem : b ∈ joinBooking (Booking.createdStore s now userId flightId numSeats price)
      (Booking.insertedRow s now userId flightId numSeats (price * numSeats)) := by
    have hb2 := hb
    simp only [Booking.findById, Booking.createdStore] at hb2
    have hfilter2 : (s.bookings ++ [Booking.insertedRow s now userId flightId numSeats
        (price * numSeats)]).filter (fun b => b.booking_id = s.nextBookingId) =
        [Booking.insertedRow s now userId flightId numSeats (price * numSeats)] := hfilter
    rw [hfilter2] at hb2
    simp only [List.flatMap_cons, List.flatMap_nil, List.append_nil] at hb2
    exact List.mem_of_mem_head? hb2
  have hfields := joinBooking_fields _ _ b hmem
  simpa [Booking.insertedRow] using hfields

/-- C4. Create/cancel round trip: when `Booking.create(u, f, n)` with `n > 0`
succeeds and yields booking `b` (the new `insertId` being a fresh id), the
following `Booking.cancel(b.booking_id, u)` succeeds and the `FLIGHTS` table,
hence the `available_seats` of `f` and of every other flight, equals the table
before the create. -/
theorem create_cancel_round_trip (s s1 : Store) (now : Nat) (userId flightId numSeats : Int)
    (b : JoinedBooking) (_hn : 0 < numSeats) (hfresh : s.bookingIdsFresh)
    (hc : Booking.create s now userId flightId numSeats = (s1, .ok (some b))) :
    ∃ s2 k, Booking.cancel s1 b.booking_id userId = (s2, .ok k) ∧
      s2.flights = s.flights ∧
      s2.flights.map (fun f => f.available_seats) =
        s.flights.map (fun f => f.available_seats) := by
  obtain ⟨f, _, _, hs1, hr⟩ := create_ok_inv s s1 now userId flightId numSeats _ hc
  subst hs1
  obtain ⟨hid, hu, hst, hseats, _, hfl⟩ :=
    findById_created s now userId flightId numSeats f.price hfresh b hr.symm
  have hfind : Booking.findById (Booking.createdStore s now userId flightId numSeats f.price)
      b.booking_id = some b := by rw [hid]; exact hr.symm
  have hcancel := cancel_commits _ b.booking_id userId b hfind hu (by rw [hst]; decide)
  have hflights : (Booking.cancelledStore
      (Booking.createdStore s now userId flightId numSeats f.price)
      b.booking_id b.flight_id b.num_seats).flights = s.flights := by
    rw [hfl, hseats]
    exact map_restore_seats s.flights flightId numSeats
  exact ⟨_, _, hcancel, hflights, by rw [hflights]⟩

/-- C4, witness: user 7 books 2 of the 3 available seats and cancels. -/
theorem create_cancel_round_trip_witness :
    ∃ s2 k, Booking.cancel (Booking.create storeThreeSeats 0 7 1 2).1 1 7 = (s2, .ok k) ∧
      s2.flights = storeThreeSeats.flights ∧
      s2.flights.map (fun f => f.available_seats) = [3] :=
  create_cancel_round_trip storeThreeSeats (Booking.create storeThreeSeats 0 7 1 2).1 0 7 1 2
    ⟨1, 7, 0, .pending_payment, 2, 40000, 1, "AN100", 1000, 2000, 20000,
      "San Francisco", "SFO", "San Francisco Intl", "New York", "JFK", "John F. Kennedy Intl"⟩
    (by decide) (by decide) (by decide)

/-! ### The whole lifecycle -/

theorem filter_map_flightId (fl : List FlightRow) (g : FlightRow → FlightRow)
    (hg : ∀ f, (g f).flight_id = f.flight_id) (flightId : Int) :
    (fl.map g).filter (fun f => f.flight_id = flightId) =
      (fl.filter fun f => f.flight_id = flightId).map g := by
  rw [List.filter_map]
  congr 2
  funext f
  simp [hg]

theorem flight?_createdStore (s : Store) (now : Nat) (userId flightId numSeats price : Int)
    (f : FlightRow) (hf : s.flight? flightId = some f) :
    (Booking.createdStore s now userId flightId numSeats price).flight? flightId =
      some { f with available_seats := f.available_seats - numSeats } := by
  obtain ⟨t, ht⟩ := head?_eq_some_imp hf
  have hid : f.flight_id = flightId := by
    have hmem : f ∈ s.flights.filter (fun f => f.flight_id = flightId) := by
      rw [ht]; simp
    simpa using (List.mem_filter.mp hmem).2
  have hmap := filter_map_flightId s.flights
    (fun f => if f.flight_id = flightId then
      { f with available_seats := f.available_seats - numSeats } else f)
    (by intro f; by_cases h : f.flight_id = flightId <;> simp [h]) flightId
  simp only [Store.flight?, Booking.createdStore]
  rw [hmap, ht]
  simp [hid]

theorem joinBooking_ne_nil (s : Store) (b : BookingRow) (f : FlightRow)
    (hf : s.flight? b.flight_id = some f)
    (hdep : ∃ a ∈ s.airports, a.airport_code = f.departure_airport_code)
    (harr : ∃ a ∈ s.airports, a.airport_code = f.arrival_airport_code) :
    joinBooking s b ≠ [] := by
  obtain ⟨t, ht⟩ := head?_eq_some_imp hf
  obtain ⟨dep, hdepm, hdepc⟩ := hdep
  obtain ⟨arr, harrm, harrc⟩ := harr
  intro hnil
  have hmem : joinedRow b f dep arr ∈ joinBooking s b := by
    simp only [joinBooking, List.mem_flatMap, List.mem_filter, List.mem_map]
    refine ⟨f, ⟨?_, ?_⟩, dep, ⟨hdepm, by simpa using hdepc⟩, arr,
      ⟨harrm, by simpa using harrc⟩, rfl⟩
    · have hm : f ∈ s.flights.filter (fun f => f.flight_id = b.flight_id) := by
        rw [ht]; simp
      exact (List.mem_filter.mp hm).1
    · have hm : f ∈ s.flights.filter (fun f => f.flight_id = b.flight_id) := by
        rw [ht]; simp
      exact (List.mem_filter.mp hm).2
  rw [hnil] at hmem
  simp at hmem

theorem filter_fresh_payment (ps : List PaymentRow) (row : PaymentRow)
    (h : ∀ r ∈ ps, r.payment_id ≠ row.payment_id) :
    (ps ++ [row]).filter (fun q => q.payment_id = row.payment_id) = [row] := by
  have h0 : ps.filter (fun q => q.payment_id = row.payment_id) = [] := by
    rw [List.filter_eq_nil_iff]
    intro a ha
    simpa using h a ha
  simp [List.filter_append, h0]

/-- C9. Full lifecycle.  For a flight row `f` (price `p`, `a` available seats,
its airport rows present) and `0 < n ≤ a`, with fresh AUTO_INCREMENT ids:
`Booking.create(u, f, n)` yields a booking `b` in `pending_payment` with
`total_price = p * n` and leaves the flight at `a - n`; then
`Payment.processMockPayment` on `b` with amount `p * n` returns a payment with
status "success" and the booking is `confirmed`; then `Booking.cancel` by `u`
succeeds, the booking is `cancelled` and the flight is back at `a`. -/
theorem full_lifecycle (s : Store) (f : FlightRow) (userId flightId numSeats : Int)
    (now1 now2 : Nat) (method last4 : String)
    (hf : s.flight? flightId = some f)
    (hdep : ∃ a ∈ s.airports, a.airport_code = f.departure_airport_code)
    (harr : ∃ a ∈ s.airports, a.airport_code = f.arrival_airport_code)
    (hfreshB : s.bookingIdsFresh) (hfreshP : s.paymentIdsFresh)
    (_hn : 0 < numSeats) (hle : numSeats ≤ f.available_seats) :
    ∃ s1 b s2 pay s3 k,
      Booking.create s now1 userId flightId numSeats = (s1, .ok (some b)) ∧
      b.status = .pending_payment ∧ b.total_price = f.price * numSeats ∧
      s1.flight? flightId =
        some { f with available_seats := f.available_seats - numSeats } ∧
      Payment.processMockPayment s1 now2 b.booking_id method last4 (f.price * numSeats) =
        (s2, .ok (some pay)) ∧
      pay.status = "success" ∧ pay.booking_id = b.booking_id ∧
      (s2.booking? b.booking_id).map (fun r => r.status) = some .confirmed ∧
      Booking.cancel s2 b.booking_id userId = (s3, .ok k) ∧
      (s3.booking? b.booking_id).map (fun r => r.status) = some .cancelled ∧
      s3.flight? flightId = some f := by
  -- create
  have hcreate := create_enough_seats s now1 userId flightId numSeats f hf hle
  have hf1 := flight?_createdStore s now1 userId flightId numSeats f.price f hf
  have hfil1 := filter_fresh_append s.bookings
    (Booking.insertedRow s now1 userId flightId numSeats (f.price * numSeats))
    (fun r hr => ne_of_lt (hfreshB r hr))
  have hb1 : (Booking.createdStore s now1 userId flightId numSeats f.price).booking?
      s.nextBookingId =
      some (Booking.insertedRow s now1 userId flightId numSeats (f.price * numSeats)) := by
    show List.head? (List.filter _ (s.bookings ++ [_])) = _
    exact (congrArg List.head? hfil1).trans rfl
  have hj1 := joinBooking_ne_nil (Booking.createdStore s now1 userId flightId numSeats f.price)
    (Booking.insertedRow s now1 userId flightId numSeats (f.price * numSeats)) _ hf1 hdep harr
  obtain ⟨b, hfind1, _⟩ := findById_of_first _ _ _ hb1 hj1
  obtain ⟨hid, _, hst, _, hprice, _⟩ :=
    findById_created s now1 userId flightId numSeats f.price hfreshB b hfind1
  -- pay
  have hpay := processMockPayment_pending
    (Booking.createdStore s now1 userId flightId numSeats f.price) now2 s.nextBookingId
    method last4 (f.price * numSeats) _ hb1 rfl
  have hfilP := filter_fresh_payment s.payments
    (Payment.insertedRow s now2 s.nextBookingId method last4 (f.price * numSeats))
    (fun r hr => ne_of_lt (hfreshP r hr))
  have hpayRow : ((Booking.createdStore s now1 userId flightId numSeats f.price).payments ++
      [Payment.insertedRow (Booking.createdStore s now1 userId flightId numSeats f.price)
        now2 s.nextBookingId method last4 (f.price * numSeats)]).filter
        (fun q => q.payment_id =
          (Booking.createdStore s now1 userId flightId numSeats f.price).nextPaymentId) =
      [Payment.insertedRow s now2 s.nextBookingId method last4 (f.price * numSeats)] := hfilP
  rw [hpayRow] at hpay
  -- the booking row after the payment
  have hfil2 := filter_map_setStatus
    (Booking.createdStore s now1 userId flightId numSeats f.price).bookings
    s.nextBookingId .confirmed
  have hfil1' : (Booking.createdStore s now1 userId flightId numSeats f.price).bookings.filter
      (fun b => b.booking_id = s.nextBookingId) =
      [Booking.insertedRow s now1 userId flightId numSeats (f.price * numSeats)] := hfil1
  rw [hfil1'] at hfil2
  obtain ⟨s2, hs2⟩ : ∃ s2 : Store, s2 =
      { Booking.createdStore s now1 userId flightId numSeats f.price with
        payments := (Booking.createdStore s now1 userId flightId numSeats f.price).payments ++
          [Payment.insertedRow (Booking.createdStore s now1 userId flightId numSeats f.price)
            now2 s.nextBookingId method last4 (f.price * numSeats)],
        nextPaymentId :=
          (Booking.createdStore s now1 userId flightId numSeats f.price).nextPaymentId + 1,
        bookings := (Booking.createdStore s now1 userId flightId numSeats f.price).bookings.map
          fun r => if r.booking_id = s.nextBookingId then
            { r with status := .confirmed } else r } := ⟨_, rfl⟩
  rw [← hs2] at hpay
  have hfil2' : s2.bookings.filter (fun b => b.booking_id = s.nextBookingId) =
      [{ Booking.insertedRow s now1 userId flightId numSeats (f.price * numSeats) with
          status := .confirmed }] := by
    rw [hs2]; exact hfil2
  have hb2 : s2.booking? s.nextBookingId =
      some { Booking.insertedRow s now1 userId flightId numSeats (f.price * numSeats) with
          status := .confirmed } := by
    simp only [Store.booking?, hfil2', List.head?_cons]
  have hf2 : s2.flight? flightId =
      some { f with available_seats := f.available_seats - numSeats } := by
    rw [hs2]; exact hf1
  have hair2 : s2.airports = s.airports := by rw [hs2]; rfl
  -- cancel
  have hj2 := joinBooking_ne_nil s2
    { Booking.insertedRow s now1 userId flightId numSeats (f.price * numSeats) with
          status := .confirmed } _ hf2 (by rw [hair2]; exact hdep) (by rw [hair2]; exact harr)
  obtain ⟨j2, hfind2, hmem2⟩ := findById_of_first _ _ _ hb2 hj2
  obtain ⟨_, hu2, hst2, hseats2, _, hfl2⟩ := joinBooking_fields _ _ j2 hmem2
  have hst2' : j2.status = .confirmed := hst2
  have hnc : j2.status ≠ .cancelled := by rw [hst2']; decide
  have hcancel := cancel_commits s2 s.nextBookingId userId j2 hfind2 hu2 hnc
  have hfl2' : j2.flight_id = flightId := hfl2
  have hseats2' : j2.num_seats = numSeats := hseats2
  rw [hfl2', hseats2'] at hcancel
  have hflights3 : (Booking.cancelledStore s2 s.nextBookingId flightId numSeats).flights =
      s.flights := by
    rw [hs2]; exact map_restore_seats s.flights flightId numSeats
  have hf3 : (Booking.cancelledStore s2 s.nextBookingId flightId numSeats).flight? flightId =
      some f := by
    simp only [Store.flight?, hflights3]; exact hf
  have hb3 : ((Booking.cancelledStore s2 s.nextBookingId flightId numSeats).booking?
      s.nextBookingId).map (fun r => r.status) = some .cancelled := by
    simp only [Store.booking?, Booking.cancelledStore, filter_map_setStatus, hfil2',
      List.map_cons, List.head?_cons, Option.map_some']
  refine ⟨Booking.createdStore s now1 userId flightId numSeats f.price, b, s2,
    Payment.insertedRow s now2 s.nextBookingId method last4 (f.price * numSeats),
    Booking.cancelledStore s2 s.nextBookingId flightId numSeats,
    (s2.bookings.filter fun b => b.booking_id = s.nextBookingId).length,
    ?_, hst, hprice, hf1, ?_, rfl, ?_, ?_, ?_, ?_, hf3⟩
  · rw [hcreate, hfind1]
  · rw [hid]; exact hpay
  · rw [hid]; rfl
  · rw [hid, hb2]; rfl
  · rw [hid]; exact hcancel
  · rw [hid]; exact hb3

/-- C9, witness: 5 seats at 200.00, user 7 books 2 seats: total 400.00 and 3
seats left; after payment and cancel the flight has 5 seats again. -/
theorem full_lifecycle_witness :
    ∃ s1 b s2 pay s3 k,
      Booking.create storeFiveSeats 10 7 1 2 = (s1, .ok (some b)) ∧
      b.status = .pending_payment ∧ b.total_price = 20000 * 2 ∧
      s1.flight? 1 = some ⟨1, "AN100", "SFO", "JFK", 1000, 2000, 20000, 5, 5 - 2⟩ ∧
      Payment.processMockPayment s1 20 b.booking_id "credit_card" "4242" (20000 * 2) =
        (s2, .ok (some pay)) ∧
      pay.status = "success" ∧ pay.booking_id = b.booking_id ∧
      (s2.booking? b.booking_id).map (fun r => r.status) = some .confirmed ∧
      Booking.cancel s2 b.booking_id 7 = (s3, .ok k) ∧
      (s3.booking? b.booking_id).map (fun r => r.status) = some .cancelled ∧
      s3.flight? 1 = some ⟨1, "AN100", "SFO", "JFK", 1000, 2000, 20000, 5, 5⟩ :=
  full_lifecycle storeFiveSeats ⟨1, "AN100", "SFO", "JFK", 1000, 2000, 20000, 5, 5⟩ 7 1 2
    10 20 "credit_card" "4242" (by decide) (by decide) (by decide) (by decide) (by decide)
    (by decide) (by decide)

/-! ### What one call does to the store -/

theorem create_store_cases (s : Store) (now : Nat) (userId flightId numSeats : Int) :
    (Booking.create s now userId flightId numSeats).1 = s ∨
    ∃ f, s.flight? flightId = some f ∧ numSeats ≤ f.available_seats ∧
      (Booking.create s now userId flightId numSeats).1 =
        Booking.createdStore s now userId flightId numSeats f.price := by
  cases hfl : s.flights.filter (fun f => f.flight_id = flightId) with
  | nil => left; simp [Booking.create, hfl]
  | cons f t =>
    have hf : s.flight? flightId = some f := by simp [Store.flight?, hfl]
    by_cases hlt : f.available_seats < numSeats
    · left; simp [Booking.create, hfl, hlt]
    · right
      have hle := not_lt.mp hlt
      exact ⟨f, hf, hle, by rw [create_enough_seats s now userId flightId numSeats f hf hle]⟩

theorem cancel_store_cases (s : Store) (bookingId userId : Int) :
    (Booking.cancel s bookingId userId).1 = s ∨
    ∃ j, Booking.findById s bookingId = some j ∧ j.user_id = userId ∧
      j.status ≠ .cancelled ∧
      (Booking.cancel s bookingId userId).1 =
        Booking.cancelledStore s bookingId j.flight_id j.num_seats := by
  cases hfind : Booking.findById s bookingId with
  | none => left; simp [Booking.cancel, hfind]
  | some j =>
    by_cases hu : j.user_id = userId
    · by_cases hst : j.status = .cancelled
      · left; simp [Booking.cancel, hfind, hu, hst]
      · right
        exact ⟨j, rfl, hu, hst, by rw [cancel_commits s bookingId userId j hfind hu hst]⟩
    · left; simp [Booking.cancel, hfind, hu]

theorem pay_store_cases (s : Store) (now : Nat) (bookingId : Int) (method last4 : String)
    (amount : Int) :
    (Payment.processMockPayment s now bookingId method last4 amount).1 = s ∨
    ∃ b, s.booking? bookingId = some b ∧ b.status = .pending_payment ∧
      (Payment.processMockPayment s now bookingId method last4 amount).1 =
        Payment.paidStore s now bookingId method last4 amount := by
  cases hfl : s.bookings.filter (fun b => b.booking_id = bookingId) with
  | nil => left; simp [Payment.processMockPayment, hfl]
  | cons b t =>
    have hb : s.booking? bookingId = some b := by simp [Store.booking?, hfl]
    by_cases hp : b.status = .pending_payment
    · right
      refine ⟨b, hb, hp, ?_⟩
      rw [processMockPayment_pending s now bookingId method last4 amount b hb hp]
      rfl
    · left; simp [Payment.processMockPayment, hfl, hp]

theorem findById_row (s : Store) (bookingId : Int) (j : JoinedBooking)
    (h : Booking.findById s bookingId = some j) :
    ∃ b ∈ s.bookings, b.booking_id = bookingId ∧ j ∈ joinBooking s b := by
  have hmem := List.mem_of_mem_head? h
  simp only [List.mem_flatMap, List.mem_filter] at hmem
  obtain ⟨b, ⟨hb, hid⟩, hj⟩ := hmem
  exact ⟨b, hb, by simpa using hid, hj⟩

/-! ### Seat accounting -/

theorem heldSeats_cons (b : BookingRow) (t : List BookingRow) (flightId : Int) :
    heldSeats (b :: t) flightId =
      (if b.flight_id = flightId ∧ b.status ≠ .cancelled then b.num_seats else 0) +
        heldSeats t flightId := by
  by_cases h : b.flight_id = flightId ∧ b.status ≠ .cancelled
  · simp [heldSeats, List.filter_cons, h]
  · simp only [heldSeats, List.filter_cons, h, decide_False, if_false, zero_add]
    simp

theorem heldSeats_append_row (bs : List BookingRow) (r : BookingRow) (flightId : Int) :
    heldSeats (bs ++ [r]) flightId =
      heldSeats bs flightId +
        (if r.flight_id = flightId ∧ r.status ≠ .cancelled then r.num_seats else 0) := by
  induction bs with
  | nil =>
    have h0 : heldSeats [] flightId = 0 := rfl
    rw [List.nil_append, heldSeats_cons, h0]; ring
  | cons a t ih => rw [List.cons_append, heldSeats_cons, heldSeats_cons, ih]; ring

theorem heldSeats_nonneg (bs : List BookingRow) (flightId : Int)
    (h : ∀ b ∈ bs, 0 ≤ b.num_seats) : 0 ≤ heldSeats bs flightId := by
  induction bs with
  | nil => simp [heldSeats]
  | cons a t ih =>
    rw [heldSeats_cons]
    have ha := h a (by simp)
    have ht := ih (fun b hb => h b (by simp [hb]))
    split <;> omega

theorem heldSeats_cancel_le (bs : List BookingRow) (bookingId flightId : Int)
    (h : ∀ b ∈ bs, 0 ≤ b.num_seats) :
    heldSeats (bs.map fun b =>
        if b.booking_id = bookingId then { b with status := .cancelled } else b) flightId ≤
      heldSeats bs flightId := by
  induction bs with
  | nil => simp [heldSeats]
  | cons a t ih =>
    rw [List.map_cons, heldSeats_cons, heldSeats_cons]
    have ha := h a (by simp)
    have ht := ih (fun b hb => h b (by simp [hb]))
    by_cases hid : a.booking_id = bookingId
    · simp only [hid, if_true, ne_eq, not_true_eq_false, and_false, if_false, zero_add]
      split <;> omega
    · simp only [hid, if_false]
      omega

theorem heldSeats_cancel_row (bs : List BookingRow) (bookingId flightId : Int)
    (h : ∀ b ∈ bs, 0 ≤ b.num_seats) (b : BookingRow) (hb : b ∈ bs)
    (hid : b.booking_id = bookingId) (hst : b.status ≠ .cancelled)
    (hfl : b.flight_id = flightId) :
    heldSeats (bs.map fun b =>
        if b.booking_id = bookingId then { b with status := .cancelled } else b) flightId +
      b.num_seats ≤ heldSeats bs flightId := by
  induction bs with
  | nil => simp at hb
  | cons a t ih =>
    rw [List.map_cons, heldSeats_cons, heldSeats_cons]
    have ha := h a (by simp)
    have hle := heldSeats_cancel_le t bookingId flightId (fun b hb => h b (by simp [hb]))
    rcases List.mem_cons.mp hb with rfl | hbt
    · simp only [hid, if_true, ne_eq, not_true_eq_false, and_false, if_false, zero_add, hfl,
        hst, not_false_eq_true, and_self]
      omega
    · have ht := ih (fun b hb => h b (by simp [hb])) hbt
      by_cases hida : a.booking_id = bookingId
      · simp only [hida, if_true, ne_eq, not_true_eq_false, and_false, if_false, zero_add]
        split <;> omega
      · simp only [hida, if_false]
        omega

theorem flight_unique (fl : List FlightRow) (hnd : (fl.map fun f => f.flight_id).Nodup)
    (f0 f : FlightRow) (h0 : f0 ∈ fl)
    (hf : (fl.filter fun g => g.flight_id = f0.flight_id).head? = some f) : f0 = f := by
  have hmem := List.mem_of_mem_head? hf
  obtain ⟨hfm, hfid⟩ := List.mem_filter.mp hmem
  have hfid' : f.flight_id = f0.flight_id := by simpa using hfid
  exact List.inj_on_of_nodup_map hnd h0 hfm hfid'.symm

theorem seatsAccounted_bounds (s : Store) (h : s.seatsAccounted) : s.seatBounds := by
  intro f hf
  obtain ⟨_, hseats, hacc⟩ := h
  have h1 := hacc f hf
  have h2 := heldSeats_nonneg s.bookings f.flight_id hseats
  omega

theorem seatsAccounted_create (s : Store) (h : s.seatsAccounted) (now : Nat)
    (userId flightId numSeats : Int) (hn : 0 < numSeats) :
    (Booking.create s now userId flightId numSeats).1.seatsAccounted := by
  rcases create_store_cases s now userId flightId numSeats with hs | ⟨f, hf, hle, hs⟩
  · rw [hs]; exact h
  · rw [hs]
    obtain ⟨hnd, hseats, hacc⟩ := h
    refine ⟨?_, ?_, ?_⟩
    · have hids : (Booking.createdStore s now userId flightId numSeats f.price).flights.map
          (fun f => f.flight_id) = s.flights.map (fun f => f.flight_id) := by
        simp only [Booking.createdStore, List.map_map]
        apply List.map_congr_left
        intro a _
        by_cases ha : a.flight_id = flightId <;> simp [ha]
      rw [hids]; exact hnd
    · intro b hb
      simp only [Booking.createdStore, List.mem_append, List.mem_singleton] at hb
      rcases hb with hb | rfl
      · exact hseats b hb
      · exact le_of_lt hn
    · intro f1 hf1
      simp only [Booking.createdStore, List.mem_map] at hf1
      obtain ⟨f0, hf0, rfl⟩ := hf1
      have hbase := hacc f0 hf0
      by_cases hid : f0.flight_id = flightId
      · have hf' : (s.flights.filter fun g => g.flight_id = f0.flight_id).head? = some f := by
          rw [hid]; exact hf
        have heq := flight_unique s.flights hnd f0 f hf0 hf'
        subst heq
        simp only [hid, if_true, Booking.createdStore, heldSeats_append_row,
          Booking.insertedRow, ne_eq, reduceCtorEq, not_false_eq_true, and_self]
        rw [hid] at hbase
        omega
      · have hne : ¬ flightId = f0.flight_id := fun h => hid h.symm
        simp only [hid, if_false, Booking.createdStore, heldSeats_append_row,
          Booking.insertedRow, hne, false_and, add_zero]
        exact hbase

theorem seatsAccounted_cancel (s : Store) (h : s.seatsAccounted) (bookingId userId : Int) :
    (Booking.cancel s bookingId userId).1.seatsAccounted := by
  rcases cancel_store_cases s bookingId userId with hs | ⟨j, hfind, _, hst, hs⟩
  · rw [hs]; exact h
  · rw [hs]
    obtain ⟨hnd, hseats, hacc⟩ := h
    obtain ⟨b, hb, hbid, hj⟩ := findById_row s bookingId j hfind
    obtain ⟨_, _, hjst, hjseats, _, hjfl⟩ := joinBooking_fields s b j hj
    have hbst : b.status ≠ .cancelled := by rw [← hjst]; exact hst
    have hbseats := hseats b hb
    refine ⟨?_, ?_, ?_⟩
    · have hids : (Booking.cancelledStore s bookingId j.flight_id j.num_seats).flights.map
          (fun f => f.flight_id) = s.flights.map (fun f => f.flight_id) := by
        simp only [Booking.cancelledStore, List.map_map]
        apply List.map_congr_left
        intro a _
        by_cases ha : a.flight_id = j.flight_id <;> simp [ha]
      rw [hids]; exact hnd
    · intro r hr
      simp only [Booking.cancelledStore, List.mem_map] at hr
      obtain ⟨r0, hr0, rfl⟩ := hr
      have := hseats r0 hr0
      by_cases hid : r0.booking_id = bookingId <;> simp [hid, this]
    · intro f1 hf1
      simp only [Booking.cancelledStore, List.mem_map] at hf1
      obtain ⟨f0, hf0, rfl⟩ := hf1
      have hbase := hacc f0 hf0
      by_cases hid : f0.flight_id = j.flight_id
      · have hrow := heldSeats_cancel_row s.bookings bookingId f0.flight_id hseats b hb hbid
          hbst (by rw [hid, hjfl])
        simp only [hid, if_true, Booking.cancelledStore]
        rw [hid] at hrow hbase
        omega
      · have hle := heldSeats_cancel_le s.bookings bookingId f0.flight_id hseats
        simp only [hid, if_false, Booking.cancelledStore]
        omega

theorem seatsAccounted_run (s : Store) (ops : List Op) (h : s.seatsAccounted)
    (hops : ∀ op ∈ ops, op.isSeatOp) : (run s ops).seatsAccounted := by
  induction ops generalizing s with
  | nil => exact h
  | cons op rest ih =>
    have hop := hops op (by simp)
    have hrest : ∀ o ∈ rest, o.isSeatOp := fun o ho => hops o (by simp [ho])
    have hstep : (step s op).seatsAccounted := by
      cases op with
      | create now userId flightId numSeats =>
        exact seatsAccounted_create s h now userId flightId numSeats hop
      | cancel bookingId userId => exact seatsAccounted_cancel s h bookingId userId
      | pay now bookingId method last4 amount => exact absurd hop (by simp [Op.isSeatOp])
      | updateStatus bookingId status => exact absurd hop (by simp [Op.isSeatOp])
      | setFlights flights => exact absurd hop (by simp [Op.isSeatOp])
    exact ih (step s op) hstep hrest

/-- C1, as stated, fails: the store `storeUnaccounted` satisfies
`0 ≤ available_seats ≤ total_seats` (5 of 5 seats available) and holds a pending
booking of 2 seats; one `Booking.cancel` by its owner puts the flight at 7
available seats of 5. -/
theorem seat_bounds_not_inductive :
    storeUnaccounted.seatBounds ∧
    (∀ op ∈ [Op.cancel 1 7], op.isSeatOp) ∧
    (run storeUnaccounted [Op.cancel 1 7]).flights.map
      (fun f => (f.available_seats, f.total_seats)) = [(7, 5)] ∧
    ¬ (run storeUnaccounted [Op.cancel 1 7]).seatBounds := by
  refine ⟨by decide, ?_, by decide, by decide⟩
  intro op hop
  rw [List.mem_singleton.mp hop]
  trivial

/-- C1, amended. Starting from a store whose seat accounts are in order
(`flight_id` a key, no negative `num_seats`, and for every flight
`0 ≤ available_seats` and `available_seats` plus the seats held by its open
bookings `≤ total_seats`), after any finite sequence of `Booking.create` (with
`numSeats > 0`) and `Booking.cancel` calls, successful or failed, the accounts
are still in order and every flight satisfies
`0 ≤ available_seats ≤ total_seats`. -/
theorem seat_bounds_invariant (s : Store) (ops : List Op) (h : s.seatsAccounted)
    (hops : ∀ op ∈ ops, op.isSeatOp) :
    (run s ops).seatsAccounted ∧ (run s ops).seatBounds :=
  ⟨seatsAccounted_run s ops h hops,
   seatsAccounted_bounds _ (seatsAccounted_run s ops h hops)⟩

/-- C1, witness: book 2, fail to book 9, cancel, book 3 on the 5-seat flight. -/
theorem seat_bounds_invariant_witness :
    (run storeFiveSeats
      [Op.create 1 7 1 2, Op.create 2 8 1 9, Op.cancel 1 7, Op.create 3 8 1 3]).seatsAccounted ∧
    (run storeFiveSeats
      [Op.create 1 7 1 2, Op.create 2 8 1 9, Op.cancel 1 7, Op.create 3 8 1 3]).seatBounds :=
  seat_bounds_invariant storeFiveSeats
    [Op.create 1 7 1 2, Op.create 2 8 1 9, Op.cancel 1 7, Op.create 3 8 1 3]
    (by decide) (by
      intro op hop
      simp only [List.mem_cons, List.mem_singleton, List.not_mem_nil, or_false] at hop
      rcases hop with rfl | rfl | rfl | rfl <;> simp [Op.isSeatOp])

/-! ### Serialized creates on one flight -/

theorem createEach_shape (flightId : Int) (calls : List (Nat × Int)) :
    ∀ (s : Store) (f : FlightRow) (k : Nat), s.flight? flightId = some f →
      f.available_seats = k →
      (createEach s flightId calls).2.length = calls.length ∧
      (∀ o ∈ (createEach s flightId calls).2.take k, o.toBool = true) ∧
      (createEach s flightId calls).2.drop k =
        List.replicate (calls.length - k)
          (.error "Not enough available seats on this flight.") ∧
      ∃ f1, (createEach s flightId calls).1.flight? flightId = some f1 ∧
        f1.available_seats = ((k - calls.length : Nat) : Int) := by
  induction calls with
  | nil =>
    intro s f k hf hk
    exact ⟨rfl, by simp [createEach], by simp [createEach], f, hf, by simpa using hk⟩
  | cons c rest ih =>
    intro s f k hf hk
    obtain ⟨now, userId⟩ := c
    cases k with
    | zero =>
      have hlt : f.available_seats < 1 := by rw [hk]; decide
      have hfail := create_seats_short s now userId flightId 1 f hf hlt
      obtain ⟨hlen, _, hdrop, f1, hf1, hav⟩ := ih s f 0 hf hk
      simp only [createEach, hfail]
      refine ⟨by simp [hlen], by simp, ?_, f1, hf1, by simpa using hav⟩
      simp only [List.drop_zero, Nat.sub_zero] at hdrop
      simp only [List.drop_zero, Nat.sub_zero, List.length_cons, List.replicate_succ, hdrop]
    | succ k1 =>
      have hle : (1 : Int) ≤ f.available_seats := by rw [hk]; push_cast; omega
      have hok := create_enough_seats s now userId flightId 1 f hf hle
      have hf1 := flight?_createdStore s now userId flightId 1 f.price f hf
      have hk1 : ({ f with available_seats := f.available_seats - 1 } : FlightRow).available_seats
          = (k1 : Int) := by
        show f.available_seats - 1 = (k1 : Int)
        rw [hk]; push_cast; omega
      obtain ⟨hlen, htake, hdrop, f2, hf2, hav⟩ := ih _ _ k1 hf1 hk1
      simp only [createEach, hok]
      refine ⟨by simp [hlen], ?_, ?_, f2, hf2, ?_⟩
      · intro o ho
        simp only [List.take_succ_cons, List.mem_cons] at ho
        rcases ho with rfl | ho
        · rfl
        · exact htake o ho
      · simp only [List.drop_succ_cons, List.length_cons, Nat.add_sub_add_right]
        exact hdrop
      · rw [hav]; simp

/-- C2. No overselling under serialization: on a flight with `k` available
seats, `N > k` one-seat `Booking.create` calls run one after another give
exactly `k` successes and `N - k` failures, each failure being "Not enough
available seats on this flight.", and the flight ends with 0 available seats. -/
theorem no_overselling (s : Store) (flightId : Int) (f : FlightRow) (k : Nat)
    (calls : List (Nat × Int)) (hf : s.flight? flightId = some f)
    (hk : f.available_seats = k) (hN : k < calls.length) :
    (createEach s flightId calls).2.length = calls.length ∧
    (createEach s flightId calls).2.countP (fun o => o.toBool) = k ∧
    (createEach s flightId calls).2.countP
      (fun o => o = .error "Not enough available seats on this flight.") =
        calls.length - k ∧
    ∃ f1, (createEach s flightId calls).1.flight? flightId = some f1 ∧
      f1.available_seats = 0 := by
  obtain ⟨hlen, htake, hdrop, f1, hf1, hav⟩ := createEach_shape flightId calls s f k hf hk
  have hsplit := List.take_append_drop k (createEach s flightId calls).2
  have htl : ((createEach s flightId calls).2.take k).length = k := by
    rw [List.length_take, hlen]; omega
  refine ⟨hlen, ?_, ?_, f1, hf1, ?_⟩
  · rw [← hsplit, List.countP_append, hdrop, List.countP_replicate]
    have h1 : List.countP (fun o => o.toBool) ((createEach s flightId calls).2.take k) = k :=
      (List.countP_eq_length.mpr htake).trans htl
    rw [h1]
    simp [Except.toBool]
  · rw [← hsplit, List.countP_append, hdrop, List.countP_replicate]
    have h0 : List.countP
        (fun o => decide (o = .error "Not enough available seats on this flight."))
        ((createEach s flightId calls).2.take k) = 0 := by
      rw [List.countP_eq_zero]
      intro a ha hdec
      have hok := htake a ha
      have : a = .error "Not enough available seats on this flight." := by simpa using hdec
      rw [this] at hok
      simp [Except.toBool] at hok
    rw [h0]
    simp
  · rw [hav]
    have : k - calls.length = 0 := by omega
    rw [this]; rfl

/-- C2, witness: 5 one-seat creates on the flight with 3 available seats. -/
theorem no_overselling_witness :
    (createEach storeThreeSeats 1 [(1, 7), (2, 8), (3, 9), (4, 7), (5, 10)]).2.length = 5 ∧
    (createEach storeThreeSeats 1 [(1, 7), (2, 8), (3, 9), (4, 7), (5, 10)]).2.countP
      (fun o => o.toBool) = 3 ∧
    (createEach storeThreeSeats 1 [(1, 7), (2, 8), (3, 9), (4, 7), (5, 10)]).2.countP
      (fun o => o = .error "Not enough available seats on this flight.") = 5 - 3 ∧
    ∃ f1, (createEach storeThreeSeats 1 [(1, 7), (2, 8), (3, 9), (4, 7), (5, 10)]).1.flight? 1
        = some f1 ∧ f1.available_seats = 0 :=
  no_overselling storeThreeSeats 1 flightThreeSeats 3 [(1, 7), (2, 8), (3, 9), (4, 7), (5, 10)]
    (by decide) (by decide) (by decide)

/-! ### The frozen columns of a booking -/

theorem map_frozenPart_setStatus (bs : List BookingRow) (bookingId : Int)
    (st : BookingStatus) :
    (bs.map fun b => if b.booking_id = bookingId then { b with status := st } else b).map
      BookingRow.frozenPart = bs.map BookingRow.frozenPart := by
  rw [List.map_map]
  apply List.map_congr_left
  intro a _
  by_cases h : a.booking_id = bookingId <;> simp [h, BookingRow.frozenPart]

theorem step_frozen (s : Store) (op : Op) :
    ∃ later, (step s op).bookings.map BookingRow.frozenPart =
      s.bookings.map BookingRow.frozenPart ++ later := by
  cases op with
  | create now userId flightId numSeats =>
    rcases create_store_cases s now userId flightId numSeats with hs | ⟨f, _, _, hs⟩
    · exact ⟨[], by simp [step, hs]⟩
    · exact ⟨[(Booking.insertedRow s now userId flightId numSeats
        (f.price * numSeats)).frozenPart], by simp [step, hs, Booking.createdStore]⟩
  | cancel bookingId userId =>
    rcases cancel_store_cases s bookingId userId with hs | ⟨j, _, _, _, hs⟩
    · exact ⟨[], by simp [step, hs]⟩
    · refine ⟨[], ?_⟩
      simp only [step, hs, Booking.cancelledStore, List.append_nil]
      exact map_frozenPart_setStatus s.bookings bookingId .cancelled
  | pay now bookingId method last4 amount =>
    rcases pay_store_cases s now bookingId method last4 amount with hs | ⟨b, _, _, hs⟩
    · exact ⟨[], by simp [step, hs]⟩
    · refine ⟨[], ?_⟩
      simp only [step, hs, Payment.paidStore, List.append_nil]
      exact map_frozenPart_setStatus s.bookings bookingId .confirmed
  | updateStatus bookingId status =>
    refine ⟨[], ?_⟩
    simp only [step, Booking.updateStatus, List.append_nil]
    exact map_frozenPart_setStatus s.bookings bookingId status
  | setFlights flights => exact ⟨[], by simp [step]⟩

theorem run_frozen (s : Store) (ops : List Op) :
    ∃ later, (run s ops).bookings.map BookingRow.frozenPart =
      s.bookings.map BookingRow.frozenPart ++ later := by
  induction ops generalizing s with
  | nil => exact ⟨[], by simp [run]⟩
  | cons op rest ih =>
    obtain ⟨l1, h1⟩ := step_frozen s op
    obtain ⟨l2, h2⟩ := ih (step s op)
    refine ⟨l1 ++ l2, ?_⟩
    have hrun : run s (op :: rest) = run (step s op) rest := rfl
    rw [hrun, h2, h1, List.append_assoc]

/-- C5. Frozen total price: a successful `Booking.create(u, f, n)` appends one
booking row whose `total_price` is the price of the flight row at that moment
times `n` (exact arithmetic), with `num_seats = n`, `user_id = u`,
`flight_id = f`; and after any later sequence of `Booking.create`,
`Booking.cancel`, `Booking.updateStatus`, `Payment.processMockPayment` calls and
changes of the `FLIGHTS` table (its prices included), the row at that position
still has the same `booking_id`, `user_id`, `flight_id`, `num_seats` and
`total_price`, as has every row before it. -/
theorem total_price_frozen (s s1 : Store) (now : Nat) (userId flightId numSeats : Int)
    (r : Option JoinedBooking)
    (hc : Booking.create s now userId flightId numSeats = (s1, .ok r)) :
    ∃ f row, s.flight? flightId = some f ∧ s1.bookings = s.bookings ++ [row] ∧
      row.total_price = f.price * numSeats ∧ row.num_seats = numSeats ∧
      row.user_id = userId ∧ row.flight_id = flightId ∧
      ∀ ops : List Op,
        ((run s1 ops).bookings[s.bookings.length]?).map BookingRow.frozenPart =
          some row.frozenPart ∧
        ∃ later, (run s1 ops).bookings.map BookingRow.frozenPart =
          (s.bookings ++ [row]).map BookingRow.frozenPart ++ later := by
  obtain ⟨f, hf, _, hs1, _⟩ := create_ok_inv s s1 now userId flightId numSeats r hc
  refine ⟨f, Booking.insertedRow s now userId flightId numSeats (f.price * numSeats), hf,
    by rw [hs1]; rfl, rfl, rfl, rfl, rfl, ?_⟩
  intro ops
  obtain ⟨later, hlater⟩ := run_frozen s1 ops
  have hb : s1.bookings = s.bookings ++
      [Booking.insertedRow s now userId flightId numSeats (f.price * numSeats)] := by
    rw [hs1]; rfl
  rw [hb] at hlater
  refine ⟨?_, later, hlater⟩
  have hget : ((run s1 ops).bookings.map BookingRow.frozenPart)[s.bookings.length]? =
      some (Booking.insertedRow s now userId flightId numSeats
        (f.price * numSeats)).frozenPart := by
    rw [hlater, List.map_append, List.append_assoc]
    rw [List.getElem?_append_right (by simp)]
    simp
  rw [List.getElem?_map] at hget
  exact hget

/-- C5, witness: the booking of 2 seats at 200.00 keeps `total_price = 400.00`
(and its other frozen columns) through a payment, a change of the flight price
to 999.99, a raw status update and a cancel. -/
theorem total_price_frozen_witness :
    ((run (Booking.create storeFiveSeats 10 7 1 2).1
        [Op.pay 20 1 "credit_card" "4242" 40000,
         Op.setFlights [⟨1, "AN100", "SFO", "JFK", 1000, 2000, 99999, 5, 3⟩],
         Op.updateStatus 1 .pending_payment,
         Op.cancel 1 7]).bookings[0]?).map BookingRow.frozenPart =
      some (1, 7, 1, 2, 40000) := by
  obtain ⟨f, row, hf, hb, hprice, hseats, hu, hfl, hops⟩ :=
    total_price_frozen storeFiveSeats (Booking.create storeFiveSeats 10 7 1 2).1 10 7 1 2
      (some ⟨1, 7, 10, .pending_payment, 2, 40000, 1, "AN100", 1000, 2000, 20000,
        "San Francisco", "SFO", "San Francisco Intl", "New York", "JFK",
        "John F. Kennedy Intl"⟩)
      (by decide)
  have hrow : row = ⟨1, 7, 1, 2, 40000, .pending_payment, 10⟩ := by
    have h1 : (Booking.create storeFiveSeats 10 7 1 2).1.bookings =
        [⟨1, 7, 1, 2, 40000, .pending_payment, 10⟩] := by decide
    rw [h1] at hb
    simpa [storeFiveSeats, storeThreeSeats] using hb.symm
  have h := (hops [Op.pay 20 1 "credit_card" "4242" 40000,
         Op.setFlights [⟨1, "AN100", "SFO", "JFK", 1000, 2000, 99999, 5, 3⟩],
         Op.updateStatus 1 .pending_payment,
         Op.cancel 1 7]).1
  rw [hrow] at h
  exact h

/-! ### The status machine -/

theorem filter_map_setStatus_ne (bs : List BookingRow) (bookingId i : Int)
    (st : BookingStatus) (hne : i ≠ bookingId) :
    (bs.map fun b => if b.booking_id = bookingId then { b with status := st } else b).filter
        (fun b => b.booking_id = i) = bs.filter fun b => b.booking_id = i := by
  induction bs with
  | nil => rfl
  | cons a t ih =>
    by_cases h : a.booking_id = bookingId
    · have hai : ¬ a.booking_id = i := fun hi => hne (hi.symm.trans h)
      have hbi : ¬ bookingId = i := fun hi => hne hi.symm
      simp only [List.map_cons, h, if_true, List.filter_cons, hbi, hai, decide_False, ih]
      simp
    · have h1 : (if a.booking_id = bookingId then { a with status := st } else a) = a := by
        simp [h]
      simp only [List.map_cons, h1, List.filter_cons, ih]

theorem booking?_setStatus (s s1 : Store) (bookingId i : Int) (st : BookingStatus)
    (b : BookingRow) (hb : s.booking? i = some b)
    (hs1 : s1.bookings = s.bookings.map fun b =>
      if b.booking_id = bookingId then { b with status := st } else b) :
    s1.booking? i = some (if i = bookingId then { b with status := st } else b) := by
  obtain ⟨t, ht⟩ := head?_eq_some_imp hb
  by_cases h : i = bookingId
  · subst h
    simp only [Store.booking?, hs1, filter_map_setStatus, ht, List.map_cons, List.head?_cons,
      if_true]
  · simp only [Store.booking?, hs1, filter_map_setStatus_ne _ _ _ _ h, ht, List.head?_cons,
      h, if_false]

theorem booking?_append (s s1 : Store) (i : Int) (b row : BookingRow)
    (hb : s.booking? i = some b) (hs1 : s1.bookings = s.bookings ++ [row]) :
    s1.booking? i = some b := by
  obtain ⟨t, ht⟩ := head?_eq_some_imp hb
  simp only [Store.booking?, hs1, List.filter_append, ht, List.cons_append, List.head?_cons]

theorem step_status (s : Store) (op : Op) (hop : op.isLifecycle) (i : Int) (b : BookingRow)
    (hb : s.booking? i = some b) :
    ∃ b1, (step s op).booking? i = some b1 ∧
      (b1.status = b.status ∨ op.moves b.status b1.status) := by
  cases op with
  | create now userId flightId numSeats =>
    rcases create_store_cases s now userId flightId numSeats with hs | ⟨f, _, _, hs⟩
    · exact ⟨b, by simp only [step, hs, hb], Or.inl rfl⟩
    · refine ⟨b, ?_, Or.inl rfl⟩
      simp only [step, hs]
      exact booking?_append s _ i b _ hb rfl
  | cancel bookingId userId =>
    rcases cancel_store_cases s bookingId userId with hs | ⟨j, _, _, _, hs⟩
    · exact ⟨b, by simp only [step, hs, hb], Or.inl rfl⟩
    · refine ⟨if i = bookingId then { b with status := .cancelled } else b, ?_, ?_⟩
      · simp only [step, hs]
        exact booking?_setStatus s _ bookingId i .cancelled b hb rfl
      · by_cases h : i = bookingId
        · simp only [h, if_true, Op.moves]
          cases hst : b.status <;> simp
        · rw [if_neg h]; exact Or.inl rfl
  | pay now bookingId method last4 amount =>
    rcases pay_store_cases s now bookingId method last4 amount with hs | ⟨b0, hb0, hp, hs⟩
    · exact ⟨b, by simp only [step, hs, hb], Or.inl rfl⟩
    · refine ⟨if i = bookingId then { b with status := .confirmed } else b, ?_, ?_⟩
      · simp only [step, hs]
        exact booking?_setStatus s _ bookingId i .confirmed b hb rfl
      · by_cases h : i = bookingId
        · subst h
          have hbb : b0 = b := Option.some.inj (hb0.symm.trans hb)
          subst hbb
          simp only [if_true, Op.moves, hp, and_self, or_true]
        · rw [if_neg h]; exact Or.inl rfl
  | updateStatus bookingId status => exact absurd hop (by simp [Op.isLifecycle])
  | setFlights flights => exact absurd hop (by simp [Op.isLifecycle])

theorem moves_statusEdge (op : Op) (a b : BookingStatus) (h : op.moves a b) :
    statusEdge a b := by
  cases op with
  | create now userId flightId numSeats => exact absurd h (by simp [Op.moves])
  | cancel bookingId userId =>
    obtain ⟨h1, h2⟩ := h
    rcases h1 with h1 | h1
    · exact Or.inr (Or.inl ⟨h1, h2⟩)
    · exact Or.inr (Or.inr ⟨h1, h2⟩)
  | pay now bookingId method last4 amount => exact Or.inl h
  | updateStatus bookingId status => exact absurd h (by simp [Op.moves])
  | setFlights flights => exact absurd h (by simp [Op.moves])

theorem statusEdge_trans (a b c : BookingStatus)
    (h1 : b = a ∨ statusEdge a b) (h2 : c = b ∨ statusEdge b c) :
    c = a ∨ statusEdge a c := by
  cases a <;> cases b <;> cases c <;> simp_all [statusEdge]

theorem run_status (s : Store) (ops : List Op) (hops : ∀ op ∈ ops, op.isLifecycle)
    (i : Int) (b : BookingRow) (hb : s.booking? i = some b) :
    ∃ b1, (run s ops).booking? i = some b1 ∧
      (b1.status = b.status ∨ statusEdge b.status b1.status) := by
  induction ops generalizing s b with
  | nil => exact ⟨b, hb, Or.inl rfl⟩
  | cons op rest ih =>
    obtain ⟨b1, hb1, h1⟩ := step_status s op (hops op (by simp)) i b hb
    obtain ⟨b2, hb2, h2⟩ := ih (step s op) (fun o ho => hops o (by simp [ho])) b1 hb1
    refine ⟨b2, hb2, ?_⟩
    have h1' : b1.status = b.status ∨ statusEdge b.status b1.status :=
      h1.imp id (moves_statusEdge op _ _)
    exact statusEdge_trans _ _ _ h1' h2

theorem filter_single_of_nodup (bs : List BookingRow) (i : Int) (b : BookingRow)
    (hnd : (bs.map fun b => b.booking_id).Nodup)
    (hb : (bs.filter fun b => b.booking_id = i).head? = some b) :
    bs.filter (fun b => b.booking_id = i) = [b] := by
  obtain ⟨t, ht⟩ := head?_eq_some_imp hb
  cases t with
  | nil => exact ht
  | cons c t1 =>
    exfalso
    have hsub : ((bs.filter fun b => b.booking_id = i).map fun b => b.booking_id).Nodup :=
      hnd.sublist (List.filter_sublist bs |>.map _)
    have hbm : b ∈ bs.filter (fun b => b.booking_id = i) := by rw [ht]; simp
    have hcm : c ∈ bs.filter (fun b => b.booking_id = i) := by rw [ht]; simp
    have hbi : b.booking_id = i := by simpa using (List.mem_filter.mp hbm).2
    have hci : c.booking_id = i := by simpa using (List.mem_filter.mp hcm).2
    rw [ht] at hsub
    simp [hbi, hci] at hsub

/-- C6. Booking status state machine, a booking being identified by its
`booking_id` (`s.booking? i` is its row), in a store whose booking ids are
unique and AUTO_INCREMENT.
(1) The row a successful `Booking.create` inserts, and the booking it returns,
are in `pending_payment`.
(2) One call of `create`, `cancel` or `processMockPayment` leaves the status of
every booking as it is or moves it along an edge of that call: payment only
pending_payment to confirmed, cancel only pending_payment or confirmed to
cancelled, create none.
(3) Over any finite sequence of such calls the status of a booking is unchanged
or has moved along one of the three edges; a cancelled booking stays cancelled
and no booking returns to `pending_payment`.
(4) On a cancelled booking payment throws "Booking status is already
cancelled." and cancel throws one of its three messages, "Booking is already
cancelled." when called by the owner of a booking that `findById` loads; the
store is unchanged. -/
theorem booking_status_machine (s : Store) (hkeys : s.bookingKeys) :
    (∀ now userId flightId numSeats s1 r,
      Booking.create s now userId flightId numSeats = (s1, .ok r) →
      ∃ row, s1.bookings = s.bookings ++ [row] ∧ row.status = .pending_payment ∧
        s1.booking? row.booking_id = some row ∧
        ∀ b, r = some b → b.status = .pending_payment) ∧
    (∀ op : Op, op.isLifecycle → ∀ i b, s.booking? i = some b →
      ∃ b1, (step s op).booking? i = some b1 ∧
        (b1.status = b.status ∨ op.moves b.status b1.status)) ∧
    (∀ ops : List Op, (∀ op ∈ ops, op.isLifecycle) → ∀ i b, s.booking? i = some b →
      ∃ b1, (run s ops).booking? i = some b1 ∧
        (b1.status = b.status ∨ statusEdge b.status b1.status) ∧
        (b.status = .cancelled → b1.status = .cancelled) ∧
        (b1.status = .pending_payment → b.status = .pending_payment)) ∧
    (∀ i b, s.booking? i = some b → b.status = .cancelled →
      (∀ now method last4 amount,
        Payment.processMockPayment s now i method last4 amount =
          (s, .error "Booking status is already cancelled.")) ∧
      (∀ userId,
        Booking.cancel s i userId = (s, .error "Booking not found.") ∨
        Booking.cancel s i userId =
          (s, .error "User not authorized to cancel this booking.") ∨
        Booking.cancel s i userId = (s, .error "Booking is already cancelled.")) ∧
      (joinBooking s b ≠ [] →
        Booking.cancel s i b.user_id = (s, .error "Booking is already cancelled."))) := by
  obtain ⟨hnd, hfresh⟩ := hkeys
  refine ⟨?_, fun op hop i b hb => step_status s op hop i b hb, ?_, ?_⟩
  · intro now userId flightId numSeats s1 r hc
    obtain ⟨f, _, _, hs1, hr⟩ := create_ok_inv s s1 now userId flightId numSeats r hc
    subst hs1
    refine ⟨Booking.insertedRow s now userId flightId numSeats (f.price * numSeats), rfl, rfl,
      ?_, ?_⟩
    · have hfil := filter_fresh_append s.bookings
        (Booking.insertedRow s now userId flightId numSeats (f.price * numSeats))
        (fun r hr => ne_of_lt (hfresh r hr))
      show List.head? (List.filter _ (s.bookings ++ [_])) = _
      exact (congrArg List.head? hfil).trans rfl
    · intro b hb
      rw [hb] at hr
      exact (findById_created s now userId flightId numSeats f.price hfresh b hr.symm).2.2.1
  · intro ops hops i b hb
    obtain ⟨b1, hb1, h1⟩ := run_status s ops hops i b hb
    refine ⟨b1, hb1, h1, ?_, ?_⟩
    · intro hc
      rw [hc] at h1
      rcases h1 with h1 | h1
      · exact h1
      · simp [statusEdge] at h1
    · intro hp
      rw [hp] at h1
      rcases h1 with h1 | h1
      · exact h1.symm
      · simp [statusEdge] at h1
  · intro i b hb hst
    have hfil := filter_single_of_nodup s.bookings i b hnd hb
    refine ⟨?_, ?_, ?_⟩
    · intro now method last4 amount
      simp only [Payment.processMockPayment, hfil, hst, ne_eq, reduceCtorEq,
        not_false_eq_true, if_true]
      rfl
    · intro userId
      cases hfind : Booking.findById s i with
      | none => left; simp only [Booking.cancel, hfind]
      | some j =>
        have hmem := List.mem_of_mem_head? hfind
        rw [hfil] at hmem
        simp only [List.flatMap_cons, List.flatMap_nil, List.append_nil] at hmem
        have hjst : j.status = .cancelled := by
          rw [(joinBooking_fields s b j hmem).2.2.1]; exact hst
        by_cases hu : j.user_id = userId
        · right; right
          simp only [Booking.cancel, hfind, hu, ne_eq, not_true_eq_false, if_false, hjst,
            if_true]
        · right; left
          simp only [Booking.cancel, hfind, hu, ne_eq, not_false_eq_true, if_true]
    · intro hj
      obtain ⟨j, hfind, hmem⟩ := findById_of_first s i b hb hj
      obtain ⟨_, hu, hjst, _⟩ := joinBooking_fields s b j hmem
      rw [hst] at hjst
      simp only [Booking.cancel, hfind, hu, ne_eq, not_true_eq_false, if_false, hjst, if_true]

/-- C6, witness: booking 1 of `storeOneCancelled` is cancelled; after a
payment attempt, a cancel by its owner and a create it is still cancelled, and
the cancel by its owner throws "Booking is already cancelled.". -/
theorem booking_status_machine_witness :
    storeOneCancelled.bookingKeys ∧
    (∃ b1, (run storeOneCancelled [Op.pay 20 1 "credit_card" "4242" 40000, Op.cancel 1 7,
        Op.create 30 8 1 1]).booking? 1 = some b1 ∧ b1.status = .cancelled) ∧
    Booking.cancel storeOneCancelled 1 7 =
      (storeOneCancelled, .error "Booking is already cancelled.") := by
  have h := booking_status_machine storeOneCancelled (by decide)
  refine ⟨by decide, ?_, ?_⟩
  · obtain ⟨b1, hb1, _, hc, _⟩ := h.2.2.1
      [Op.pay 20 1 "credit_card" "4242" 40000, Op.cancel 1 7, Op.create 30 8 1 1]
      (by
        intro op hop
        simp only [List.mem_cons, List.mem_singleton, List.not_mem_nil, or_false] at hop
        rcases hop with rfl | rfl | rfl <;> simp [Op.isLifecycle])
      1 ⟨1, 7, 1, 2, 40000, .cancelled, 500⟩ (by decide)
    exact ⟨b1, hb1, hc rfl⟩
  · exact (h.2.2.2 1 ⟨1, 7, 1, 2, 40000, .cancelled, 500⟩ (by decide) rfl).2.2 (by decide)

/-! ### When a payment goes through -/

theorem pay_booking_missing (s : Store) (now : Nat) (bookingId : Int) (method last4 : String)
    (amount : Int) (h : s.booking? bookingId = none) :
    Payment.processMockPayment s now bookingId method last4 amount =
      (s, .error "Booking not found.") := by
  have h0 := head?_eq_none_imp h
  simp only [Payment.processMockPayment, h0]

theorem pay_not_pending (s : Store) (now : Nat) (bookingId : Int) (method last4 : String)
    (amount : Int) (b : BookingRow) (h : s.booking? bookingId = some b)
    (hst : b.status ≠ .pending_payment) :
    Payment.processMockPayment s now bookingId method last4 amount =
      (s, .error ("Booking status is already " ++ b.status.toString ++ ".")) := by
  obtain ⟨t, ht⟩ := head?_eq_some_imp h
  simp only [Payment.processMockPayment, ht, hst, ne_eq, not_false_eq_true, if_true]

/-- C11. `Payment.processMockPayment` succeeds exactly when the booking row
exists and is in `pending_payment`: it throws "Booking not found." when there is
no row, "Booking status is already confirmed." or "... cancelled." when the
status is that one, and on a pending booking it commits whatever the amount is,
equal to the booking's `total_price` or not: the inserted payment row records
the amount supplied and the booking is confirmed. -/
theorem payment_success_iff (s : Store) (now : Nat) (bookingId : Int) (method last4 : String)
    (amount : Int) :
    (s.booking? bookingId = none →
      Payment.processMockPayment s now bookingId method last4 amount =
        (s, .error "Booking not found.")) ∧
    (∀ b, s.booking? bookingId = some b → b.status = .confirmed →
      Payment.processMockPayment s now bookingId method last4 amount =
        (s, .error "Booking status is already confirmed.")) ∧
    (∀ b, s.booking? bookingId = some b → b.status = .cancelled →
      Payment.processMockPayment s now bookingId method last4 amount =
        (s, .error "Booking status is already cancelled.")) ∧
    (∀ b, s.booking? bookingId = some b → b.status = .pending_payment →
      ∃ pay, Payment.processMockPayment s now bookingId method last4 amount =
          (Payment.paidStore s now bookingId method last4 amount, .ok pay) ∧
        (Payment.paidStore s now bookingId method last4 amount).payments =
          s.payments ++ [Payment.insertedRow s now bookingId method last4 amount] ∧
        (Payment.insertedRow s now bookingId method last4 amount).amount = amount ∧
        (Payment.paidStore s now bookingId method last4 amount).booking? bookingId =
          some { b with status := .confirmed }) ∧
    ((Payment.processMockPayment s now bookingId method last4 amount).2.toBool = true ↔
      ∃ b, s.booking? bookingId = some b ∧ b.status = .pending_payment) := by
  refine ⟨pay_booking_missing s now bookingId method last4 amount, ?_, ?_, ?_, ?_⟩
  · intro b hb hst
    rw [pay_not_pending s now bookingId method last4 amount b hb (by rw [hst]; decide), hst]
    rfl
  · intro b hb hst
    rw [pay_not_pending s now bookingId method last4 amount b hb (by rw [hst]; decide), hst]
    rfl
  · intro b hb hst
    refine ⟨_, processMockPayment_pending s now bookingId method last4 amount b hb hst,
      rfl, rfl, ?_⟩
    have h := booking?_setStatus s (Payment.paidStore s now bookingId method last4 amount)
      bookingId bookingId .confirmed b hb rfl
    rw [h, if_pos rfl]
  · constructor
    · intro hok
      cases hb : s.booking? bookingId with
      | none =>
        rw [pay_booking_missing s now bookingId method last4 amount hb] at hok
        simp [Except.toBool] at hok
      | some b =>
        by_cases hst : b.status = .pending_payment
        · exact ⟨b, rfl, hst⟩
        · rw [pay_not_pending s now bookingId method last4 amount b hb hst] at hok
          simp [Except.toBool] at hok
    · rintro ⟨b, hb, hst⟩
      rw [processMockPayment_pending s now bookingId method last4 amount b hb hst]
      rfl

/-- C11, witness: the pending booking 1 (total 400.00) is paid with amount
0.01: the call succeeds, the payment row records 0.01, the booking is confirmed;
booking 9 does not exist. -/
theorem payment_success_iff_witness :
    (Payment.processMockPayment storeOnePending 10 1 "credit_card" "4242" 1).2.toBool = true ∧
    (Payment.processMockPayment storeOnePending 10 1 "credit_card" "4242" 1).1.payments.map
      (fun p => p.amount) = [1] ∧
    (Payment.paidStore storeOnePending 10 1 "credit_card" "4242" 1).booking? 1 =
      some ⟨1, 7, 1, 2, 40000, .confirmed, 500⟩ ∧
    Payment.processMockPayment storeOnePending 10 9 "credit_card" "4242" 1 =
      (storeOnePending, .error "Booking not found.") := by
  have h := payment_success_iff storeOnePending 10 1 "credit_card" "4242" 1
  have h9 := (payment_success_iff storeOnePending 10 9 "credit_card" "4242" 1).1 (by decide)
  obtain ⟨pay, hpay, _, _, hb⟩ :=
    h.2.2.2.1 ⟨1, 7, 1, 2, 40000, .pending_payment, 500⟩ (by decide) rfl
  exact ⟨h.2.2.2.2.mpr ⟨⟨1, 7, 1, 2, 40000, .pending_payment, 500⟩, by decide, rfl⟩,
    by rw [hpay]; rfl, hb, h9⟩

/-- C13, the code at the failing input: two successful payments, on bookings 1
and 2, made at the same clock reading 1000; the two inserted payment rows carry
the same `transaction_id`, "mock_txn_1000". -/
theorem transaction_id_collision :
    (Payment.processMockPayment storeTwoPending 1000 1 "credit_card" "4242" 40000).2.toBool
      = true ∧
    (Payment.processMockPayment
      (Payment.processMockPayment storeTwoPending 1000 1 "credit_card" "4242" 40000).1
      1000 2 "debit_card" "1111" 20000).2.toBool = true ∧
    (Payment.processMockPayment
      (Payment.processMockPayment storeTwoPending 1000 1 "credit_card" "4242" 40000).1
      1000 2 "debit_card" "1111" 20000).1.payments.map
        (fun p => (p.booking_id, p.transaction_id)) =
      [(1, "mock_txn_1000"), (2, "mock_txn_1000")] := by
  decide

/-- C14. Payment never touches inventory: `Payment.processMockPayment`,
succeeding or failing, leaves the `FLIGHTS` table (and `AIRPORTS`) exactly as it
was; the bookings are either untouched or differ only in the status of the rows
with the target id, now confirmed; the payments are untouched or have the one
inserted row more.  `Booking.updateStatus`, which it calls, leaves `FLIGHTS` as
it was too. -/
theorem payment_leaves_flights (s : Store) (now : Nat) (bookingId : Int)
    (method last4 : String) (amount : Int) :
    (Payment.processMockPayment s now bookingId method last4 amount).1.flights = s.flights ∧
    (Payment.processMockPayment s now bookingId method last4 amount).1.airports =
      s.airports ∧
    ((Payment.processMockPayment s now bookingId method last4 amount).1.bookings =
        s.bookings ∨
      (Payment.processMockPayment s now bookingId method last4 amount).1.bookings =
        s.bookings.map fun r =>
          if r.booking_id = bookingId then { r with status := .confirmed } else r) ∧
    ((Payment.processMockPayment s now bookingId method last4 amount).1.payments =
        s.payments ∨
      (Payment.processMockPayment s now bookingId method last4 amount).1.payments =
        s.payments ++ [Payment.insertedRow s now bookingId method last4 amount]) ∧
    (∀ status, (Booking.updateStatus s bookingId status).1.flights = s.flights) := by
  rcases pay_store_cases s now bookingId method last4 amount with hs | ⟨b, _, _, hs⟩
  · rw [hs]; exact ⟨rfl, rfl, Or.inl rfl, Or.inl rfl, fun _ => rfl⟩
  · rw [hs]; exact ⟨rfl, rfl, Or.inr rfl, Or.inr rfl, fun _ => rfl⟩

/-! ### The payment rows -/

theorem booking?_mem (s : Store) (bookingId : Int) (b : BookingRow)
    (h : s.booking? bookingId = some b) : b ∈ s.bookings ∧ b.booking_id = bookingId := by
  have hmem := List.mem_of_mem_head? h
  obtain ⟨hb, hid⟩ := List.mem_filter.mp hmem
  exact ⟨hb, by simpa using hid⟩

theorem paymentsTracked_create (s : Store) (h : s.paymentsTracked) (now : Nat)
    (userId flightId numSeats : Int) :
    (Booking.create s now userId flightId numSeats).1.paymentsTracked := by
  rcases create_store_cases s now userId flightId numSeats with hs | ⟨f, _, _, hs⟩
  · rw [hs]; exact h
  · rw [hs]
    obtain ⟨⟨ha, hb, hc⟩, hfresh, hpay⟩ := h
    refine ⟨⟨ha, hb, ?_⟩, ?_, ?_⟩
    · intro p hp b hbm hid
      simp only [Booking.createdStore, List.mem_append, List.mem_singleton] at hbm
      rcases hbm with hbm | rfl
      · exact hc p hp b hbm hid
      · have hlt := hpay p hp
        have hid' : s.nextBookingId = p.booking_id := hid
        omega
    · intro b hbm
      simp only [Booking.createdStore, List.mem_append, List.mem_singleton] at hbm
      show b.booking_id < s.nextBookingId + 1
      rcases hbm with hbm | rfl
      · have := hfresh b hbm; omega
      · show s.nextBookingId < s.nextBookingId + 1; omega
    · intro p hp
      show p.booking_id < s.nextBookingId + 1
      have := hpay p hp; omega

theorem paymentsTracked_cancel (s : Store) (h : s.paymentsTracked) (bookingId userId : Int) :
    (Booking.cancel s bookingId userId).1.paymentsTracked := by
  rcases cancel_store_cases s bookingId userId with hs | ⟨j, _, _, _, hs⟩
  · rw [hs]; exact h
  · rw [hs]
    obtain ⟨⟨ha, hb, hc⟩, hfresh, hpay⟩ := h
    refine ⟨⟨ha, hb, ?_⟩, ?_, hpay⟩
    · intro p hp b hbm hid
      simp only [Booking.cancelledStore, List.mem_map] at hbm
      obtain ⟨b0, hb0, rfl⟩ := hbm
      by_cases h0 : b0.booking_id = bookingId
      · simp [h0]
      · simp only [h0, if_false] at hid ⊢
        exact hc p hp b0 hb0 hid
    · intro b hbm
      simp only [Booking.cancelledStore, List.mem_map] at hbm
      obtain ⟨b0, hb0, rfl⟩ := hbm
      have := hfresh b0 hb0
      by_cases h0 : b0.booking_id = bookingId <;> simpa [h0, Booking.cancelledStore] using this

theorem paymentsTracked_pay (s : Store) (h : s.paymentsTracked) (now : Nat) (bookingId : Int)
    (method last4 : String) (amount : Int) :
    (Payment.processMockPayment s now bookingId method last4 amount).1.paymentsTracked := by
  rcases pay_store_cases s now bookingId method last4 amount with hs | ⟨b, hb, hst, hs⟩
  · rw [hs]; exact h
  · rw [hs]
    obtain ⟨⟨ha, hcount, hc⟩, hfresh, hpay⟩ := h
    obtain ⟨hbm, hbid⟩ := booking?_mem s bookingId b hb
    have hnone : s.payments.filter (fun p => p.booking_id = bookingId) = [] := by
      rw [List.filter_eq_nil_iff]
      intro p hp hpid
      have hpid' : p.booking_id = bookingId := by simpa using hpid
      exact hc p hp b hbm (hbid.trans hpid'.symm) hst
    refine ⟨⟨?_, ?_, ?_⟩, ?_, ?_⟩
    · intro p hp
      simp only [Payment.paidStore, List.mem_append, List.mem_singleton] at hp
      rcases hp with hp | rfl
      · exact ha p hp
      · rfl
    · intro i
      simp only [Payment.paidStore, List.filter_append]
      by_cases hi : bookingId = i
      · subst hi
        rw [hnone]
        simp [Payment.insertedRow]
      · have := hcount i
        simpa [Payment.insertedRow, List.filter_cons, hi] using this
    · intro p hp r hr hid
      simp only [Payment.paidStore, List.mem_map] at hr
      obtain ⟨r0, hr0, rfl⟩ := hr
      by_cases h0 : r0.booking_id = bookingId
      · simp [h0]
      · simp only [h0, if_false] at hid ⊢
        simp only [Payment.paidStore, List.mem_append, List.mem_singleton] at hp
        rcases hp with hp | rfl
        · exact hc p hp r0 hr0 hid
        · exact absurd hid h0
    · intro r hr
      simp only [Payment.paidStore, List.mem_map] at hr
      obtain ⟨r0, hr0, rfl⟩ := hr
      have := hfresh r0 hr0
      by_cases h0 : r0.booking_id = bookingId <;> simpa [h0, Payment.paidStore] using this
    · intro p hp
      simp only [Payment.paidStore, List.mem_append, List.mem_singleton] at hp
      show p.booking_id < s.nextBookingId
      rcases hp with hp | rfl
      · exact hpay p hp
      · have := hfresh b hbm
        show bookingId < s.nextBookingId
        omega

theorem paymentsTracked_run (s : Store) (ops : List Op) (h : s.paymentsTracked)
    (hops : ∀ op ∈ ops, op.isLifecycle) : (run s ops).paymentsTracked := by
  induction ops generalizing s with
  | nil => exact h
  | cons op rest ih =>
    have hop := hops op (by simp)
    have hstep : (step s op).paymentsTracked := by
      cases op with
      | create now userId flightId numSeats =>
        exact paymentsTracked_create s h now userId flightId numSeats
      | cancel bookingId userId => exact paymentsTracked_cancel s h bookingId userId
      | pay now bookingId method last4 amount =>
        exact paymentsTracked_pay s h now bookingId method last4 amount
      | updateStatus bookingId status => exact absurd hop (by simp [Op.isLifecycle])
      | setFlights flights => exact absurd hop (by simp [Op.isLifecycle])
    exact ih (step s op) hstep (fun o ho => hops o (by simp [ho]))

/-- C12. Payment-row invariant: in every store reached from one with no payment
rows (and AUTO_INCREMENT booking ids) by `Booking.create`, `Booking.cancel` and
`Payment.processMockPayment` calls, every payment row has status "success", no
booking has more than one payment row, and no booking in `pending_payment` has a
payment row; and a further call either leaves the payments table as it is or is
a `processMockPayment` on a booking in `pending_payment` at that moment, which
appends its one row. -/
theorem payment_rows_invariant (s : Store) (ops : List Op) (h0 : s.payments = [])
    (hfresh : s.bookingIdsFresh) (hops : ∀ op ∈ ops, op.isLifecycle) :
    (run s ops).paymentsInOrder ∧
    ∀ op : Op, op.isLifecycle →
      (step (run s ops) op).payments = (run s ops).payments ∨
      ∃ now bookingId method last4 amount b,
        op = .pay now bookingId method last4 amount ∧
        (run s ops).booking? bookingId = some b ∧ b.status = .pending_payment ∧
        (step (run s ops) op).payments = (run s ops).payments ++
          [Payment.insertedRow (run s ops) now bookingId method last4 amount] := by
  have hstart : s.paymentsTracked := by
    refine ⟨⟨?_, ?_, ?_⟩, hfresh, ?_⟩ <;> simp [h0]
  refine ⟨(paymentsTracked_run s ops hstart hops).1, ?_⟩
  intro op hop
  cases op with
  | create now userId flightId numSeats =>
    left
    rcases create_store_cases (run s ops) now userId flightId numSeats with hs | ⟨f, _, _, hs⟩
    · simp only [step, hs]
    · simp only [step, hs]; rfl
  | cancel bookingId userId =>
    left
    rcases cancel_store_cases (run s ops) bookingId userId with hs | ⟨j, _, _, _, hs⟩
    · simp only [step, hs]
    · simp only [step, hs]; rfl
  | pay now bookingId method last4 amount =>
    rcases pay_store_cases (run s ops) now bookingId method last4 amount with
      hs | ⟨b, hb, hst, hs⟩
    · left; simp only [step, hs]
    · right
      exact ⟨now, bookingId, method, last4, amount, b, rfl, hb, hst, by simp only [step, hs]; rfl⟩
  | updateStatus bookingId status => exact absurd hop (by simp [Op.isLifecycle])
  | setFlights flights => exact absurd hop (by simp [Op.isLifecycle])

/-- C12, witness: booking 1 is paid, paid again (refused), cancelled, and a new
booking is made; the payment rows of the resulting store are in order. -/
theorem payment_rows_invariant_witness :
    (run storeTwoPending
      [Op.pay 10 1 "credit_card" "4242" 40000, Op.pay 11 1 "debit_card" "1111" 40000,
       Op.cancel 1 7, Op.create 12 8 1 1]).paymentsInOrder :=
  (payment_rows_invariant storeTwoPending
    [Op.pay 10 1 "credit_card" "4242" 40000, Op.pay 11 1 "debit_card" "1111" 40000,
     Op.cancel 1 7, Op.create 12 8 1 1] rfl (by decide)
    (by
      intro op hop
      simp only [List.mem_cons, List.mem_singleton, List.not_mem_nil, or_false] at hop
      rcases hop with rfl | rfl | rfl | rfl <;> simp [Op.isLifecycle])).1

/-! ### Seat conservation -/

theorem map_setStatus_absent (bs : List BookingRow) (bookingId : Int) (st : BookingStatus)
    (h : ∀ r ∈ bs, r.booking_id ≠ bookingId) :
    (bs.map fun b => if b.booking_id = bookingId then { b with status := st } else b) = bs := by
  induction bs with
  | nil => rfl
  | cons a t ih =>
    have ha := h a (by simp)
    rw [List.map_cons, ih (fun r hr => h r (by simp [hr])), if_neg ha]

theorem heldSeats_setStatus_unique (bs : List BookingRow) (bookingId flightId : Int)
    (st : BookingStatus) (hnd : (bs.map fun b => b.booking_id).Nodup) (b : BookingRow)
    (hb : b ∈ bs) (hid : b.booking_id = bookingId) :
    heldSeats (bs.map fun r =>
        if r.booking_id = bookingId then { r with status := st } else r) flightId =
      heldSeats bs flightId
        - (if b.flight_id = flightId ∧ b.status ≠ .cancelled then b.num_seats else 0)
        + (if b.flight_id = flightId ∧ st ≠ .cancelled then b.num_seats else 0) := by
  induction bs with
  | nil => simp at hb
  | cons a t ih =>
    rw [List.map_cons, List.nodup_cons] at hnd
    obtain ⟨hnot, hndt⟩ := hnd
    rw [List.map_cons, heldSeats_cons, heldSeats_cons]
    rcases List.mem_cons.mp hb with rfl | hbt
    · have habs : ∀ r ∈ t, r.booking_id ≠ bookingId := by
        intro r hr heq
        exact hnot (List.mem_map.mpr ⟨r, hr, heq.trans hid.symm⟩)
      rw [map_setStatus_absent t bookingId st habs, if_pos hid]
      simp only
      ring
    · have hne : a.booking_id ≠ bookingId := by
        intro heq
        exact hnot (List.mem_map.mpr ⟨b, hbt, hid.trans heq.symm⟩)
      rw [if_neg hne, ih hndt hbt]
      ring

theorem seatLedger_create (s : Store) (now : Nat) (userId flightId numSeats : Int) :
    (Booking.create s now userId flightId numSeats).1.seatLedger = s.seatLedger := by
  rcases create_store_cases s now userId flightId numSeats with hs | ⟨f, _, _, hs⟩
  · rw [hs]
  · rw [hs]
    simp only [Store.seatLedger, Booking.createdStore, List.map_map]
    apply List.map_congr_left
    intro a _
    by_cases ha : a.flight_id = flightId
    · simp [ha, heldSeats_append_row, Booking.insertedRow]
    · have ha' : ¬ flightId = a.flight_id := fun h => ha h.symm
      simp [ha, ha', heldSeats_append_row, Booking.insertedRow]

theorem seatLedger_pay (s : Store) (hnd : (s.bookings.map fun b => b.booking_id).Nodup)
    (now : Nat) (bookingId : Int) (method last4 : String) (amount : Int) :
    (Payment.processMockPayment s now bookingId method last4 amount).1.seatLedger =
      s.seatLedger := by
  rcases pay_store_cases s now bookingId method last4 amount with hs | ⟨b, hb, hst, hs⟩
  · rw [hs]
  · rw [hs]
    obtain ⟨hbm, hbid⟩ := booking?_mem s bookingId b hb
    simp only [Store.seatLedger, Payment.paidStore]
    apply List.map_congr_left
    intro a _
    rw [heldSeats_setStatus_unique s.bookings bookingId a.flight_id .confirmed hnd b hbm hbid]
    simp [hst]

theorem seatLedger_cancel (s : Store) (hnd : (s.bookings.map fun b => b.booking_id).Nodup)
    (bookingId userId : Int) :
    (Booking.cancel s bookingId userId).1.seatLedger = s.seatLedger := by
  rcases cancel_store_cases s bookingId userId with hs | ⟨j, hfind, _, hst, hs⟩
  · rw [hs]
  · rw [hs]
    obtain ⟨b, hb, hbid, hj⟩ := findById_row s bookingId j hfind
    obtain ⟨_, _, hjst, hjseats, _, hjfl⟩ := joinBooking_fields s b j hj
    have hbst : b.status ≠ .cancelled := by rw [← hjst]; exact hst
    simp only [Store.seatLedger, Booking.cancelledStore, List.map_map]
    apply List.map_congr_left
    intro a _
    have hheld := heldSeats_setStatus_unique s.bookings bookingId a.flight_id .cancelled hnd b
      hb hbid
    by_cases ha : a.flight_id = j.flight_id
    · have hba : b.flight_id = a.flight_id := by rw [ha, hjfl]
      simp only [Function.comp, ha, if_true, Prod.mk.injEq, true_and]
      rw [← ha, hheld, hjseats]
      simp [hba, hbst]
    · have hba : ¬ b.flight_id = a.flight_id := by rw [← hjfl]; exact fun h => ha h.symm
      simp only [Function.comp, ha, if_false, Prod.mk.injEq, true_and]
      rw [hheld]
      simp [hba]

theorem map_bookingId_setStatus (bs : List BookingRow) (bookingId : Int)
    (st : BookingStatus) :
    (bs.map fun b => if b.booking_id = bookingId then { b with status := st } else b).map
      (fun b => b.booking_id) = bs.map fun b => b.booking_id := by
  rw [List.map_map]
  apply List.map_congr_left
  intro a _
  by_cases h : a.booking_id = bookingId <;> simp [h]

theorem bookingKeys_setStatus (s s1 : Store) (h : s.bookingKeys) (bookingId : Int)
    (st : BookingStatus)
    (hb : s1.bookings = s.bookings.map fun b =>
      if b.booking_id = bookingId then { b with status := st } else b)
    (hn : s1.nextBookingId = s.nextBookingId) : s1.bookingKeys := by
  obtain ⟨hnd, hfresh⟩ := h
  have hids := map_bookingId_setStatus s.bookings bookingId st
  refine ⟨by rw [hb, hids]; exact hnd, ?_⟩
  intro r hr
  have hrid : r.booking_id ∈ s1.bookings.map fun b => b.booking_id :=
    List.mem_map.mpr ⟨r, hr, rfl⟩
  rw [hb, hids] at hrid
  obtain ⟨r0, hr0, hr0id⟩ := List.mem_map.mp hrid
  have := hfresh r0 hr0
  rw [hn]
  have hr0id' : r0.booking_id = r.booking_id := hr0id
  omega

theorem bookingKeys_step (s : Store) (h : s.bookingKeys) (op : Op) (hop : op.isLifecycle) :
    (step s op).bookingKeys := by
  cases op with
  | create now userId flightId numSeats =>
    rcases create_store_cases s now userId flightId numSeats with hs | ⟨f, _, _, hs⟩
    · simp only [step, hs]; exact h
    · simp only [step, hs]
      obtain ⟨hnd, hfresh⟩ := h
      refine ⟨?_, ?_⟩
      · show ((s.bookings ++ [Booking.insertedRow s now userId flightId numSeats
            (f.price * numSeats)]).map fun b => b.booking_id).Nodup
        rw [List.map_append, List.nodup_append]
        refine ⟨hnd, by simp, ?_⟩
        intro a ha ha2
        simp only [List.map_cons, List.map_nil, List.mem_singleton, Booking.insertedRow] at ha2
        obtain ⟨r, hr, hrid⟩ := List.mem_map.mp ha
        have := hfresh r hr
        have hrid' : r.booking_id = a := hrid
        omega
      · intro r hr
        simp only [Booking.createdStore, List.mem_append, List.mem_singleton] at hr
        show r.booking_id < s.nextBookingId + 1
        rcases hr with hr | rfl
        · have := hfresh r hr; omega
        · show s.nextBookingId < s.nextBookingId + 1; omega
  | cancel bookingId userId =>
    rcases cancel_store_cases s bookingId userId with hs | ⟨j, _, _, _, hs⟩
    · simp only [step, hs]; exact h
    · simp only [step, hs]
      exact bookingKeys_setStatus s _ h bookingId .cancelled rfl rfl
  | pay now bookingId method last4 amount =>
    rcases pay_store_cases s now bookingId method last4 amount with hs | ⟨b, _, _, hs⟩
    · simp only [step, hs]; exact h
    · simp only [step, hs]
      exact bookingKeys_setStatus s _ h bookingId .confirmed rfl rfl
  | updateStatus bookingId status => exact absurd hop (by simp [Op.isLifecycle])
  | setFlights flights => exact absurd hop (by simp [Op.isLifecycle])

theorem seatLedger_step (s : Store) (h : s.bookingKeys) (op : Op) (hop : op.isLifecycle) :
    (step s op).seatLedger = s.seatLedger := by
  cases op with
  | create now userId flightId numSeats => exact seatLedger_create s now userId flightId numSeats
  | cancel bookingId userId => exact seatLedger_cancel s h.1 bookingId userId
  | pay now bookingId method last4 amount =>
    exact seatLedger_pay s h.1 now bookingId method last4 amount
  | updateStatus bookingId status => exact absurd hop (by simp [Op.isLifecycle])
  | setFlights flights => exact absurd hop (by simp [Op.isLifecycle])

theorem seatLedger_run (s : Store) (ops : List Op) (h : s.bookingKeys)
    (hops : ∀ op ∈ ops, op.isLifecycle) : (run s ops).seatLedger = s.seatLedger := by
  induction ops generalizing s with
  | nil => rfl
  | cons op rest ih =>
    have hop := hops op (by simp)
    have hrun : run s (op :: rest) = run (step s op) rest := rfl
    rw [hrun, ih (step s op) (bookingKeys_step s h op hop) (fun o ho => hops o (by simp [ho])),
      seatLedger_step s h op hop]

/-- C19. Seat conservation: in a store whose booking ids are unique and
AUTO_INCREMENT, for every flight the quantity `available_seats + (sum of
num_seats over its bookings that are not cancelled)` has the same value before
and after every `Booking.create`, `Booking.cancel` and
`Payment.processMockPayment` call, successful or failed, and hence after every
finite sequence of such calls. -/
theorem seat_conservation (s : Store) (hkeys : s.bookingKeys) :
    (∀ op : Op, op.isLifecycle → (step s op).seatLedger = s.seatLedger) ∧
    (∀ ops : List Op, (∀ op ∈ ops, op.isLifecycle) →
      (run s ops).seatLedger = s.seatLedger) :=
  ⟨fun op hop => seatLedger_step s hkeys op hop,
   fun ops hops => seatLedger_run s ops hkeys hops⟩

/-- C19, witness: flight 1 has 3 available seats and a pending booking of 2;
after a create, a payment, a cancel, a refused second cancel and a refused
create the ledger still reads 5 for flight 1. -/
theorem seat_conservation_witness :
    storeOnePending.seatLedger = [(1, 5)] ∧
    (run storeOnePending
      [Op.create 10 8 1 1, Op.pay 11 1 "credit_card" "4242" 40000, Op.cancel 1 7,
       Op.cancel 1 7, Op.create 12 9 1 9]).seatLedger = [(1, 5)] := by
  have h := (seat_conservation storeOnePending (by decide)).2
    [Op.create 10 8 1 1, Op.pay 11 1 "credit_card" "4242" 40000, Op.cancel 1 7,
     Op.cancel 1 7, Op.create 12 9 1 9]
    (by
      intro op hop
      simp only [List.mem_cons, List.mem_singleton, List.not_mem_nil, or_false] at hop
      rcases hop with rfl | rfl | rfl | rfl | rfl <;> simp [Op.isLifecycle])
  have h0 : storeOnePending.seatLedger = [(1, 5)] := by decide
  exact ⟨h0, h.trans h0⟩

/-! ### `createBooking`: what reaches the model -/

theorem createBookingArgs_some (flightId numSeats : JsValue) (f : JsNumber)
    (n : SeatsArgument)
    (h : bookingController.createBookingArgs flightId numSeats = some (f, n)) :
    f = parseInt flightId.toStr ∧ n.toNumber = parseInt numSeats.toStr ∧
    (parseInt flightId.toStr).isNaN = false ∧
    (n = .infinity ∨ ∃ k, n = .count k ∧ 1 ≤ k) := by
  unfold bookingController.createBookingArgs at h
  split at h
  · exact absurd h (by simp)
  · rename_i hcond
    simp only [Bool.or_eq_true, Bool.not_eq_true', not_or, Bool.not_eq_true] at hcond
    obtain ⟨⟨⟨⟨_, _⟩, hfnan⟩, _⟩, hle⟩ := hcond
    cases hn : parseInt numSeats.toStr with
    | nan => rw [hn] at h; simp at h
    | negInfinity => rw [hn] at h; simp at h
    | posInfinity =>
      rw [hn] at h
      simp only [Option.some.injEq, Prod.mk.injEq] at h
      obtain ⟨rfl, rfl⟩ := h
      exact ⟨rfl, rfl, hfnan, Or.inl rfl⟩
    | finite k =>
      rw [hn] at h hle
      simp only [Option.some.injEq, Prod.mk.injEq] at h
      obtain ⟨rfl, rfl⟩ := h
      have hk : ¬ k ≤ 0 := by simpa [JsNumber.leZero] using hle
      exact ⟨rfl, rfl, hfnan, Or.inr ⟨k, rfl, by omega⟩⟩

theorem createBookingArgs_none (flightId numSeats : JsValue)
    (h : flightId = .undefined ∨ flightId = .null ∨ numSeats = .undefined ∨
      numSeats = .null ∨ parseInt flightId.toStr = .nan ∨ parseInt numSeats.toStr = .nan ∨
      (∃ k, parseInt numSeats.toStr = .finite k ∧ k ≤ 0) ∨
      parseInt numSeats.toStr = .negInfinity) :
    bookingController.createBookingArgs flightId numSeats = none := by
  unfold bookingController.createBookingArgs
  split
  · rfl
  · rename_i hcond
    exfalso
    apply hcond
    rcases h with rfl | rfl | rfl | rfl | h | h | ⟨k, hk, hle⟩ | h
    · simp [JsValue.truthy]
    · simp [JsValue.truthy]
    · simp [JsValue.truthy]
    · simp [JsValue.truthy]
    · simp [h, JsNumber.isNaN]
    · simp [h, JsNumber.isNaN]
    · simp [hk, JsNumber.leZero, hle]
    · simp [h, JsNumber.leZero]

theorem createUnbounded_fails (s : Store) (flightId : Int) :
    Booking.createUnbounded s flightId = (s, .error "Flight not found.") ∨
    Booking.createUnbounded s flightId =
      (s, .error "Not enough available seats on this flight.") := by
  unfold Booking.createUnbounded
  cases s.flights.filter fun f => f.flight_id = flightId with
  | nil => exact Or.inl rfl
  | cons a l => exact Or.inr rfl

/-- The value of `parseInt` is a double: below `2^53` it is the integer read,
`2^53 + 1` is rounded to `2^53` and `2^53 + 3` to `2^53 + 4` (ties to even), a
negative number is rounded likewise, `0x` selects radix 16, and 309 nines give
`Infinity`, with a minus sign `-Infinity`. -/
theorem parseInt_double :
    parseInt "9007199254740991" = .finite 9007199254740991 ∧
    parseInt "9007199254740993" = .finite 9007199254740992 ∧
    parseInt "9007199254740995" = .finite 9007199254740996 ∧
    parseInt "-9007199254740993" = .finite (-9007199254740992) ∧
    parseInt " 0x1F" = .finite 31 ∧
    parseInt "2 seats" = .finite 2 ∧
    parseInt "seats" = .nan ∧
    parseInt manyNines = .posInfinity ∧
    parseInt (String.mk ('-' :: manyNines.data)) = .negInfinity := by
  decide!

/-- C20, as stated, fails: with `numSeats` a string of 309 nines, `parseInt`
gives `Infinity`, which is not `NaN` and not `<= 0`, so `Booking.create` is
called with `numSeats = Infinity`, which is not an integer; the call throws and
the answer is 400 "Not enough available seats on this flight.". -/
theorem create_called_with_infinity :
    parseInt manyNines = .posInfinity ∧
    bookingController.createBookingArgs (.int 1) (.str manyNines) =
      some (.finite 1, .infinity) ∧
    (¬ ∃ k : Int, SeatsArgument.infinity.toNumber = .finite k) ∧
    bookingController.createBooking storeThreeSeats 5 7 (.int 1) (.str manyNines) =
      (storeThreeSeats, ⟨400, .message "Not enough available seats on this flight."⟩) := by
  refine ⟨by decide!, by decide!, ?_, by decide!⟩
  rintro ⟨k, hk⟩
  cases hk

/-- C20, amended. The `createBooking` controller enforces `numSeats > 0`.  If
`flightId` or `numSeats` is missing (undefined or null), or `parseInt` of one of
them is `NaN`, or `parseInt(numSeats) <= 0`, then `Booking.create` is not called
and the response is 400 on an unchanged store.  Whenever `Booking.create` is
called, its arguments are the numbers `parseInt(flightId)` and
`parseInt(numSeats)`, neither of them `NaN`, and the `numSeats` argument is an
integer at least 1 or `Infinity`; with finite integers the response is built
from `Booking.create` on them; with `numSeats = Infinity` the store is
unchanged and, `flightId` being an integer, the call throws "Flight not found."
or "Not enough available seats on this flight.", answered 400. -/
theorem create_booking_validation (s : Store) (now : Nat) (userId : Int)
    (flightId numSeats : JsValue) :
    ((flightId = .undefined ∨ flightId = .null ∨ numSeats = .undefined ∨ numSeats = .null ∨
        parseInt flightId.toStr = .nan ∨ parseInt numSeats.toStr = .nan ∨
        (∃ k, parseInt numSeats.toStr = .finite k ∧ k ≤ 0) ∨
        parseInt numSeats.toStr = .negInfinity) →
      bookingController.createBookingArgs flightId numSeats = none ∧
      bookingController.createBooking s now userId flightId numSeats =
        (s, ⟨400, .message
          "Invalid input: flightId and a positive number of seats are required."⟩)) ∧
    (∀ f n, bookingController.createBookingArgs flightId numSeats = some (f, n) →
      f = parseInt flightId.toStr ∧ n.toNumber = parseInt numSeats.toStr ∧
      (parseInt flightId.toStr).isNaN = false ∧
      (n = .infinity ∨ ∃ k, n = .count k ∧ 1 ≤ k)) ∧
    (∀ fid k, bookingController.createBookingArgs flightId numSeats =
        some (.finite fid, .count k) →
      bookingController.createBooking s now userId flightId numSeats =
        ((Booking.create s now userId fid k).1,
          match (Booking.create s now userId fid k).2 with
          | .ok newBooking =>
            ⟨201, .messageBooking "Booking created successfully (pending payment)." newBooking⟩
          | .error message => bookingController.createBookingOnError message)) ∧
    (∀ f, bookingController.createBookingArgs flightId numSeats = some (f, .infinity) →
      (bookingController.createBooking s now userId flightId numSeats).1 = s) ∧
    (∀ fid, bookingController.createBookingArgs flightId numSeats =
        some (.finite fid, .infinity) →
      bookingController.createBooking s now userId flightId numSeats =
        (s, ⟨400, .message "Flight not found."⟩) ∨
      bookingController.createBooking s now userId flightId numSeats =
        (s, ⟨400, .message "Not enough available seats on this flight."⟩)) := by
  have e1 : bookingController.createBookingOnError "Flight not found." =
      ⟨400, .message "Flight not found."⟩ := by decide
  have e2 : bookingController.createBookingOnError
      "Not enough available seats on this flight." =
      ⟨400, .message "Not enough available seats on this flight."⟩ := by decide
  refine ⟨?_, ?_, ?_, ?_, ?_⟩
  · intro h
    have hargs := createBookingArgs_none flightId numSeats h
    exact ⟨hargs, by simp only [bookingController.createBooking, hargs]⟩
  · intro f n h
    exact createBookingArgs_some flightId numSeats f n h
  · intro fid k h
    simp only [bookingController.createBooking, h, bookingController.callCreate]
    cases hc : Booking.create s now userId fid k with
    | mk s1 r => cases r <;> rfl
  · intro f h
    simp only [bookingController.createBooking, h]
    cases f with
    | finite fid =>
      simp only [bookingController.callCreate]
      rcases createUnbounded_fails s fid with hu | hu
      · simp only [hu, e1]
      · simp only [hu, e2]
    | nan => simp only [bookingController.callCreate, e1]
    | posInfinity => simp only [bookingController.callCreate, e1]
    | negInfinity => simp only [bookingController.callCreate, e1]
  · intro fid h
    simp only [bookingController.createBooking, h, bookingController.callCreate]
    rcases createUnbounded_fails s fid with hu | hu
    · left; simp only [hu, e1]
    · right; simp only [hu, e2]

/-- C20, witness: `numSeats` "0", "-2", "abc" and a missing `flightId` are
answered 400 without a call; `flightId` 1 with `numSeats` "2 seats" calls
`Booking.create(userId, 1, 2)`; `numSeats` of 309 nines calls it with
`Infinity` and leaves the store as it was. -/
theorem create_booking_validation_witness :
    bookingController.createBookingArgs (.int 1) (.str "0") = none ∧
    bookingController.createBookingArgs (.int 1) (.str "-2") = none ∧
    bookingController.createBookingArgs (.int 1) (.str "abc") = none ∧
    bookingController.createBooking storeThreeSeats 5 7 .undefined (.int 2) =
      (storeThreeSeats, ⟨400, .message
        "Invalid input: flightId and a positive number of seats are required."⟩) ∧
    (SeatsArgument.count 2 = .infinity ∨ ∃ k, SeatsArgument.count 2 = .count k ∧ 1 ≤ k) ∧
    (bookingController.createBooking storeThreeSeats 5 7 (.int 1) (.str "2 seats")).2.status
      = 201 ∧
    (bookingController.createBooking storeThreeSeats 5 7 (.int 1) (.str manyNines)).1 =
      storeThreeSeats := by
  have h0 := (create_booking_validation storeThreeSeats 5 7 (.int 1) (.str "0")).1
    (Or.inr (Or.inr (Or.inr (Or.inr (Or.inr (Or.inr (Or.inl ⟨0, by decide, by decide⟩)))))))
  have h1 := (create_booking_validation storeThreeSeats 5 7 (.int 1) (.str "-2")).1
    (Or.inr (Or.inr (Or.inr (Or.inr (Or.inr (Or.inr (Or.inl ⟨-2, by decide, by decide⟩)))))))
  have h2 := (create_booking_validation storeThreeSeats 5 7 (.int 1) (.str "abc")).1
    (Or.inr (Or.inr (Or.inr (Or.inr (Or.inr (Or.inl (by decide)))))))
  have h3 := (create_booking_validation storeThreeSeats 5 7 .undefined (.int 2)).1
    (Or.inl rfl)
  have h4 := (create_booking_validation storeThreeSeats 5 7 (.int 1) (.str "2 seats")).2.1
    (.finite 1) (.count 2) (by decide)
  have h5 := (create_booking_validation storeThreeSeats 5 7 (.int 1) (.str "2 seats")).2.2.1
    1 2 (by decide)
  have h6 := (create_booking_validation storeThreeSeats 5 7 (.int 1) (.str manyNines)).2.2.2.1
    (.finite 1) (by decide!)
  exact ⟨h0.1, h1.1, h2.1, h3.2, h4.2.2.2, by rw [h5]; decide, h6⟩

/-! ### The card number -/

theorem takeDigits_end (n : Nat) : ∀ cs : List Char, (takeDigits n cs).2 = [] →
    (∀ c ∈ cs, c.isDigit = true) ∧ cs.length = (takeDigits n cs).1 ∧
      (takeDigits n cs).1 ≤ n := by
  induction n with
  | zero =>
    intro cs h
    have hcs : cs = [] := h
    subst hcs
    exact ⟨by simp, rfl, Nat.le_refl 0⟩
  | succ n ih =>
    intro cs h
    cases cs with
    | nil => exact ⟨by simp, rfl, Nat.zero_le _⟩
    | cons c cs =>
      by_cases hc : c.isDigit = true
      · simp only [takeDigits, hc, if_true] at h ⊢
        obtain ⟨hall, hlen, hle⟩ := ih cs h
        refine ⟨?_, by simp [hlen], by omega⟩
        intro x hx
        rcases List.mem_cons.mp hx with rfl | hx
        · exact hc
        · exact hall x hx
      · simp [takeDigits, hc] at h

theorem takeDigits_all (n : Nat) : ∀ cs : List Char, (∀ c ∈ cs, c.isDigit = true) →
    cs.length ≤ n → takeDigits n cs = (cs.length, []) := by
  induction n with
  | zero =>
    intro cs _ hlen
    have hcs : cs = [] := List.length_eq_zero.mp (Nat.le_zero.mp hlen)
    subst hcs
    rfl
  | succ n ih =>
    intro cs hall hlen
    cases cs with
    | nil => rfl
    | cons c cs =>
      have hc := hall c (by simp)
      have hrest := ih cs (fun x hx => hall x (by simp [hx]))
        (by simp only [List.length_cons] at hlen; omega)
      simp only [takeDigits, hc, if_true, hrest, List.length_cons]

theorem isCardNumber_iff (number : String) :
    isCardNumber (stripWhiteSpace number) = true ↔ cardNumberAccepted number := by
  simp only [isCardNumber, stripWhiteSpace, cardNumberAccepted, Bool.and_eq_true,
    decide_eq_true_eq, List.isEmpty_iff]
  constructor
  · rintro ⟨h13, hend⟩
    obtain ⟨hall, hlen, hle⟩ := takeDigits_end 19 _ hend
    exact ⟨by omega, by omega, hall⟩
  · rintro ⟨h13, h19, hall⟩
    rw [takeDigits_all 19 _ hall h19]
    exact ⟨h13, rfl⟩

theorem pay_ok_inv (s s1 : Store) (now : Nat) (bookingId : Int) (method last4 : String)
    (amount : Int) (r : Option PaymentRow)
    (h : Payment.processMockPayment s now bookingId method last4 amount = (s1, .ok r)) :
    s1 = Payment.paidStore s now bookingId method last4 amount := by
  cases hb : s.booking? bookingId with
  | none =>
    rw [pay_booking_missing s now bookingId method last4 amount hb] at h
    simp at h
  | some b =>
    by_cases hst : b.status = .pending_payment
    · rw [processMockPayment_pending s now bookingId method last4 amount b hb hst] at h
      simp only [Prod.mk.injEq] at h
      exact h.1.symm
    · rw [pay_not_pending s now bookingId method last4 amount b hb hst] at h
      simp at h

theorem checkInput_reached (bookingId : JsValue) (method number : String)
    (hb : bookingId.truthy = true) (hid : (parseInt bookingId.toStr).isNaN = false)
    (hm : method = "credit_card" ∨ method = "debit_card") (hne : number ≠ "") :
    paymentController.checkInput bookingId (.str method) (some number) =
      if isCardNumber (stripWhiteSpace number) then
        .ok (parseInt bookingId.toStr, method, sliceLast4 (stripWhiteSpace number))
      else
        .error ⟨400, .message "Invalid card number format."⟩ := by
  have hmt : (JsValue.str method).truthy = true := by
    rcases hm with rfl | rfl <;> decide
  simp only [paymentController.checkInput, hb, hmt, hne, hid, hm, Bool.not_true,
    Bool.or_self, Bool.false_eq_true, false_or, if_false, if_true]
  simp

theorem controller_payments (s : Store) (now : Nat) (userId : Int)
    (bookingId paymentMethod : JsValue) (cardNumber : Option String) (id : JsNumber)
    (method last4 : String)
    (hin : paymentController.checkInput bookingId paymentMethod cardNumber =
      .ok (id, method, last4)) :
    (paymentController.processMockPayment s now userId bookingId paymentMethod
        cardNumber).1.payments = s.payments ∨
    ∃ n amount, id = .finite n ∧
      (paymentController.processMockPayment s now userId bookingId paymentMethod
        cardNumber).1.payments = s.payments ++ [Payment.insertedRow s now n method last4 amount] := by
  cases id with
  | nan => left; simp only [paymentController.processMockPayment, hin]
  | posInfinity => left; simp only [paymentController.processMockPayment, hin]
  | negInfinity => left; simp only [paymentController.processMockPayment, hin]
  | finite n =>
    simp only [paymentController.processMockPayment, hin]
    cases hfind : Booking.findById s n with
    | none => left; rfl
    | some j =>
      by_cases hu : j.user_id = userId
      · by_cases hst : j.status = .pending_payment
        · simp only [hu, hst, ne_eq, not_true_eq_false, if_false]
          have hstore : ∀ r : Store × Except String (Option PaymentRow),
              (match r with
                | (s1, .ok payment) =>
                  (s1, (⟨200, .messagePayment "Mock payment successful. Booking confirmed."
                    payment⟩ : Response))
                | (s1, .error message) =>
                  (s1, paymentController.processMockPaymentOnError message)).1 = r.1 := by
            intro r
            obtain ⟨s1, o⟩ := r
            cases o <;> rfl
          rw [hstore]
          rcases pay_store_cases s now n method last4 j.total_price with hs | ⟨b, _, _, hs⟩
          · left; rw [hs]
          · right; exact ⟨n, j.total_price, rfl, by rw [hs]; rfl⟩
        · left; simp only [hu, hst, ne_eq, not_true_eq_false, not_false_eq_true, if_false,
            if_true]
      · left; simp only [hu, ne_eq, not_false_eq_true, if_true]

/-- C15, as stated, fails: the empty string is a string, it is not accepted, and
the response is not 400 "Invalid card number format." but 400 "Missing required
payment details: ...", sent by the guard `!cardDetails.number` before the card
check is reached. -/
theorem empty_card_number_missing_details :
    ¬ cardNumberAccepted "" ∧
    paymentController.processMockPayment storeOnePending 5 7 (.int 1) (.str "credit_card")
        (some "") =
      (storeOnePending, ⟨400, .message
        "Missing required payment details: bookingId, paymentMethod, cardDetails (with number)."⟩) ∧
    paymentController.processMockPayment storeOnePending 5 7 (.int 1) (.str "credit_card")
        (some "") ≠
      (storeOnePending, ⟨400, .message "Invalid card number format."⟩) := by
  decide

/-- C15, amended. Card-number handling in the `processMockPayment` controller,
the other fields being valid (booking id present and numeric, a valid payment
method).  The empty string is answered 400 "Missing required payment details:
..." on an unchanged store.  For every non-empty string the card check is passed
exactly when the number, all white space removed, consists of between 13 and 19
decimal digits and nothing else; otherwise the response is 400 "Invalid card
number format." on an unchanged store, the model not being called.  When it is
passed, the value handed on is the last 4 characters of the stripped number, 4
digits, and a payment row the request adds carries exactly that value as
`card_number_last4`. -/
theorem card_number_check (s : Store) (now : Nat) (userId : Int) (bookingId : JsValue)
    (method number : String)
    (hb : bookingId.truthy = true) (hid : (parseInt bookingId.toStr).isNaN = false)
    (hm : method = "credit_card" ∨ method = "debit_card") :
    (number = "" →
      paymentController.processMockPayment s now userId bookingId (.str method) (some number) =
        (s, ⟨400, .message
          "Missing required payment details: bookingId, paymentMethod, cardDetails (with number)."⟩)) ∧
    (number ≠ "" →
      (paymentController.checkInput bookingId (.str method) (some number) =
          .ok (parseInt bookingId.toStr, method, sliceLast4 (stripWhiteSpace number)) ↔
        cardNumberAccepted number) ∧
      (¬ cardNumberAccepted number →
        paymentController.checkInput bookingId (.str method) (some number) =
          .error ⟨400, .message "Invalid card number format."⟩ ∧
        paymentController.processMockPayment s now userId bookingId (.str method)
            (some number) =
          (s, ⟨400, .message "Invalid card number format."⟩)) ∧
      (cardNumberAccepted number →
        (sliceLast4 (stripWhiteSpace number)).data.length = 4 ∧
        (∀ c ∈ (sliceLast4 (stripWhiteSpace number)).data, c.isDigit = true) ∧
        (∃ front, (stripWhiteSpace number).data =
          front ++ (sliceLast4 (stripWhiteSpace number)).data) ∧
        ((paymentController.processMockPayment s now userId bookingId (.str method)
              (some number)).1.payments = s.payments ∨
          ∃ n amount, parseInt bookingId.toStr = .finite n ∧
            (paymentController.processMockPayment s now userId bookingId (.str method)
              (some number)).1.payments = s.payments ++
                [Payment.insertedRow s now n method (sliceLast4 (stripWhiteSpace number))
                  amount]))) := by
  constructor
  · intro hempty
    subst hempty
    have hin : paymentController.checkInput bookingId (.str method) (some "") =
        .error ⟨400, .message
          "Missing required payment details: bookingId, paymentMethod, cardDetails (with number)."⟩ := by
      simp [paymentController.checkInput]
    simp only [paymentController.processMockPayment, hin]
  · intro hne
    have hreach := checkInput_reached bookingId method number hb hid hm hne
    refine ⟨?_, ?_, ?_⟩
    · rw [hreach, ← isCardNumber_iff]
      by_cases hc : isCardNumber (stripWhiteSpace number) = true
      · simp [hc]
      · simp [hc]
    · intro hno
      have hc : ¬ isCardNumber (stripWhiteSpace number) = true :=
        fun h => hno ((isCardNumber_iff number).mp h)
      have hin : paymentController.checkInput bookingId (.str method) (some number) =
          .error ⟨400, .message "Invalid card number format."⟩ := by
        rw [hreach, if_neg hc]
      exact ⟨hin, by simp only [paymentController.processMockPayment, hin]⟩
    · intro hyes
      have hc : isCardNumber (stripWhiteSpace number) = true :=
        (isCardNumber_iff number).mpr hyes
      obtain ⟨h13, _, hall⟩ := hyes
      have hin : paymentController.checkInput bookingId (.str method) (some number) =
          .ok (parseInt bookingId.toStr, method, sliceLast4 (stripWhiteSpace number)) := by
        rw [hreach, if_pos hc]
      refine ⟨?_, ?_, ?_, ?_⟩
      · simp only [sliceLast4, stripWhiteSpace, List.length_drop]
        omega
      · intro c hcm
        simp only [sliceLast4, stripWhiteSpace] at hcm
        exact hall c (List.mem_of_mem_drop hcm)
      · refine ⟨(stripWhiteSpace number).data.take
          ((stripWhiteSpace number).data.length - 4), ?_⟩
        simp only [sliceLast4, List.take_append_drop]
      · exact controller_payments s now userId bookingId (.str method) (some number) _ _ _ hin

/-- C15, witness: "4242 4242 4242 1234" is accepted and "1234" is what the
payment row keeps; "4242-4242-4242-1234" is answered 400 "Invalid card number
format."; the empty string is answered 400 "Missing required payment
details: ...". -/
theorem card_number_check_witness :
    cardNumberAccepted "4242 4242 4242 1234" ∧
    paymentController.checkInput (.int 1) (.str "credit_card") (some "4242 4242 4242 1234") =
      .ok (.finite 1, "credit_card", "1234") ∧
    (paymentController.processMockPayment storeOnePending 5 7 (.int 1) (.str "credit_card")
      (some "4242 4242 4242 1234")).1.payments.map (fun p => p.card_number_last4) = ["1234"] ∧
    paymentController.processMockPayment storeOnePending 5 7 (.int 1) (.str "credit_card")
      (some "4242-4242-4242-1234") =
        (storeOnePending, ⟨400, .message "Invalid card number format."⟩) ∧
    paymentController.processMockPayment storeOnePending 5 7 (.int 1) (.str "credit_card")
      (some "") =
        (storeOnePending, ⟨400, .message
          "Missing required payment details: bookingId, paymentMethod, cardDetails (with number)."⟩) := by
  have h := (card_number_check storeOnePending 5 7 (.int 1) "credit_card"
    "4242 4242 4242 1234" (by decide) (by decide) (by decide)).2 (by decide)
  have h2 := (card_number_check storeOnePending 5 7 (.int 1) "credit_card"
    "4242-4242-4242-1234" (by decide) (by decide) (by decide)).2 (by decide)
  have h3 := (card_number_check storeOnePending 5 7 (.int 1) "credit_card"
    "" (by decide) (by decide) (by decide)).1 rfl
  have hacc : cardNumberAccepted "4242 4242 4242 1234" := by decide
  have hlast : sliceLast4 (stripWhiteSpace "4242 4242 4242 1234") = "1234" := by decide
  have hparse : parseInt (JsValue.int 1).toStr = .finite 1 := by decide
  refine ⟨hacc, ?_, by decide, (h2.2.1 (by decide)).2, h3⟩
  have := h.1.mpr hacc
  rw [hlast, hparse] at this
  exact this

/-! ### Ownership at the HTTP boundary -/

/-- Ownership at the boundary when `findById` loads the booking (its row, with
the flight and airport rows the query joins): for an authenticated caller who is
not the owner, `getBookingById` answers 403, `processMockPayment` with
otherwise valid input answers 403, `getPaymentStatus` answers 403 and
`cancelBooking` answers 400 with the not-authorized message; each body is a
bare message, with no booking or payment data, and the two requests that could
write leave the store as it was. -/
theorem ownership_at_boundary (s : Store) (now : Nat) (userId id : Int) (b : BookingRow)
    (booking_id : String) (bookingId paymentMethod : JsValue) (cardNumber : Option String)
    (method last4 : String)
    (hb : s.booking? id = some b) (hj : joinBooking s b ≠ []) (hu : b.user_id ≠ userId)
    (hparam : booking_id ≠ "") (hparse : parseInt booking_id = .finite id)
    (hin : paymentController.checkInput bookingId paymentMethod cardNumber =
      .ok (.finite id, method, last4)) :
    bookingController.getBookingById s userId booking_id =
      ⟨403, .message "Not authorized to view this booking."⟩ ∧
    paymentController.processMockPayment s now userId bookingId paymentMethod cardNumber =
      (s, ⟨403, .message "Not authorized to pay for this booking."⟩) ∧
    paymentController.getPaymentStatus s userId booking_id =
      ⟨403, .message "Not authorized to view payment for this booking."⟩ ∧
    bookingController.cancelBooking s userId booking_id =
      (s, ⟨400, .message "User not authorized to cancel this booking."⟩) := by
  obtain ⟨j, hfind, hmem⟩ := findById_of_first s id b hb hj
  have hju : j.user_id ≠ userId := by
    rw [(joinBooking_fields s b j hmem).2.1]; exact hu
  have hcancel : Booking.cancel s id userId =
      (s, .error "User not authorized to cancel this booking.") := by
    simp only [Booking.cancel, hfind, hju, ne_eq, not_false_eq_true, if_true]
  refine ⟨?_, ?_, ?_, ?_⟩
  · simp only [bookingController.getBookingById, hparam, hparse, hfind, hju, ne_eq,
      not_false_eq_true, if_true, if_false]
  · simp only [paymentController.processMockPayment, hin, hfind, hju, ne_eq,
      not_false_eq_true, if_true]
  · simp only [paymentController.getPaymentStatus, hparam, hparse, hfind, hju, ne_eq,
      not_false_eq_true, if_true, if_false]
  · have hcatch : bookingController.cancelBookingOnError
        "User not authorized to cancel this booking." =
        ⟨400, .message "User not authorized to cancel this booking."⟩ := by decide
    simp only [bookingController.cancelBooking, hparam, hparse, hcancel, if_false, hcatch]

/-- User 8 against the pending booking 1 of user 7, flight and airports
present. -/
theorem ownership_at_boundary_witness :
    bookingController.getBookingById storeOnePending 8 "1" =
      ⟨403, .message "Not authorized to view this booking."⟩ ∧
    paymentController.processMockPayment storeOnePending 5 8 (.int 1) (.str "credit_card")
        (some "4242 4242 4242 1234") =
      (storeOnePending, ⟨403, .message "Not authorized to pay for this booking."⟩) ∧
    paymentController.getPaymentStatus storeOnePending 8 "1" =
      ⟨403, .message "Not authorized to view payment for this booking."⟩ ∧
    bookingController.cancelBooking storeOnePending 8 "1" =
      (storeOnePending, ⟨400, .message "User not authorized to cancel this booking."⟩) :=
  ownership_at_boundary storeOnePending 5 8 1 ⟨1, 7, 1, 2, 40000, .pending_payment, 500⟩ "1"
    (.int 1) (.str "credit_card") (some "4242 4242 4242 1234") "credit_card" "1234"
    (by decide) (by decide) (by decide) (by decide) (by decide) (by decide)

/-- C16, the code at the failing input: booking 1 of user 7 exists, its flight
row 99 does not; for the authenticated user 8, `getBookingById`,
`processMockPayment` and `getPaymentStatus` answer 404 "Booking not found." and
`cancelBooking` answers 400 "Booking not found.", not the 403 and
not-authorized answers; no booking or payment data is sent and the store is
unchanged. -/
theorem ownership_orphan_not_found :
    storeOrphan.booking? 1 = some ⟨1, 7, 99, 2, 40000, .pending_payment, 500⟩ ∧
    bookingController.getBookingById storeOrphan 8 "1" =
      ⟨404, .message "Booking not found."⟩ ∧
    paymentController.processMockPayment storeOrphan 5 8 (.int 1) (.str "credit_card")
        (some "4242 4242 4242 1234") =
      (storeOrphan, ⟨404, .message "Booking not found."⟩) ∧
    paymentController.getPaymentStatus storeOrphan 8 "1" =
      ⟨404, .message "Booking not found."⟩ ∧
    bookingController.cancelBooking storeOrphan 8 "1" =
      (storeOrphan, ⟨400, .message "Booking not found."⟩) := by
  decide

/-! ### What the `catch` blocks send -/

/-- C17, the code at the failing input: an error that is not one of the
messages of the model but whose text contains "not found" (or "Flight not
found") is sent to the client word for word, with status 400, by each of the
three `catch` blocks, so two runs that differ only in that text get different
responses; a text without the substrings gets the generic 500 message. -/
theorem error_text_reaches_client :
    bookingController.cancelBookingOnError
        "Deadlock: row not found in index PRIMARY of table BOOKINGS; UPDATE BOOKINGS SET status" =
      ⟨400, .message
        "Deadlock: row not found in index PRIMARY of table BOOKINGS; UPDATE BOOKINGS SET status"⟩ ∧
    bookingController.cancelBookingOnError "host db-7.internal not found" =
      ⟨400, .message "host db-7.internal not found"⟩ ∧
    bookingController.cancelBookingOnError
        "Deadlock: row not found in index PRIMARY of table BOOKINGS; UPDATE BOOKINGS SET status" ≠
      bookingController.cancelBookingOnError "host db-7.internal not found" ∧
    paymentController.processMockPaymentOnError "host db-7.internal not found" =
      ⟨400, .message "host db-7.internal not found"⟩ ∧
    bookingController.createBookingOnError
        "Trigger trg_audit failed: Flight not found in FLIGHTS_AUDIT" =
      ⟨400, .message "Trigger trg_audit failed: Flight not found in FLIGHTS_AUDIT"⟩ ∧
    bookingController.cancelBookingOnError "Lock wait timeout exceeded" =
      ⟨500, .message "Server error during booking cancellation."⟩ := by
  decide

/-! ### Two transactions on one booking -/

/-- `Booking.cancel` is its reading step followed by its writing step. -/
theorem cancel_eq_load_apply (s : Store) (bookingId userId : Int) :
    Booking.cancel s bookingId userId =
      match Booking.cancelLoad s bookingId userId with
      | .error message => (s, .error message)
      | .ok booking => Booking.cancelApply s bookingId booking := by
  unfold Booking.cancel Booking.cancelLoad Booking.cancelApply
  cases Booking.findById s bookingId with
  | none => rfl
  | some j =>
    by_cases hu : j.user_id ≠ userId
    · simp only [if_pos hu]
    · by_cases hst : j.status = .cancelled
      · simp only [if_neg hu, if_pos hst]
      · simp only [if_neg hu, if_neg hst]

/-- C18, the code at the failing input: two `Booking.cancel(1, 7)` transactions
on the pending booking 1 (2 seats, flight 1 with 3 of 5 seats available).  The
SELECT of `findById` takes no lock, so both transactions may load the booking
before either writes: both loads return the booking as pending, the first
transaction then writes and commits, the second one writes and commits as well.
Both calls succeed and the seats are restored twice, 7 available of 5; run one
after the other, the second call throws "Booking is already cancelled." and the
flight has 5 seats. -/
theorem concurrent_cancels_restore_twice :
    Booking.cancelLoad storeOnePending 1 7 =
      .ok ⟨1, 7, 500, .pending_payment, 2, 40000, 1, "AN100", 1000, 2000, 20000,
        "San Francisco", "SFO", "San Francisco Intl", "New York", "JFK",
        "John F. Kennedy Intl"⟩ ∧
    (∀ booking, Booking.cancelLoad storeOnePending 1 7 = .ok booking →
      (Booking.cancelApply storeOnePending 1 booking).2 = .ok 1 ∧
      (Booking.cancelApply (Booking.cancelApply storeOnePending 1 booking).1 1 booking).2 =
        .ok 1 ∧
      (Booking.cancelApply (Booking.cancelApply storeOnePending 1 booking).1 1
        booking).1.flights.map (fun f => (f.available_seats, f.total_seats)) = [(7, 5)]) ∧
    Booking.cancel (Booking.cancel storeOnePending 1 7).1 1 7 =
      ((Booking.cancel storeOnePending 1 7).1, .error "Booking is already cancelled.") ∧
    (Booking.cancel storeOnePending 1 7).1.flights.map
      (fun f => (f.available_seats, f.total_seats)) = [(5, 5)] := by
  refine ⟨by decide, ?_, by decide, by decide⟩
  intro booking h
  have h0 : Booking.cancelLoad storeOnePending 1 7 =
      .ok ⟨1, 7, 500, .pending_payment, 2, 40000, 1, "AN100", 1000, 2000, 20000,
        "San Francisco", "SFO", "San Francisco Intl", "New York", "JFK",
        "John F. Kennedy Intl"⟩ := by decide
  rw [h0] at h
  cases h
  decide

/-! ### `Flight.updateAvailableSeats` -/

theorem flights_filter_single (fl : List FlightRow) (flightId : Int) (f : FlightRow)
    (hnd : (fl.map fun g => g.flight_id).Nodup) (hf : f ∈ fl)
    (hid : f.flight_id = flightId) :
    fl.filter (fun g => g.flight_id = flightId) = [f] := by
  induction fl with
  | nil => simp at hf
  | cons a t ih =>
    rw [List.map_cons, List.nodup_cons] at hnd
    obtain ⟨hnot, hndt⟩ := hnd
    rcases List.mem_cons.mp hf with rfl | hft
    · have hnone : t.filter (fun g => g.flight_id = flightId) = [] := by
        rw [List.filter_eq_nil_iff]
        intro g hg hgid
        have hgid' : g.flight_id = flightId := by simpa using hgid
        exact hnot (List.mem_map.mpr ⟨g, hg, hgid'.trans hid.symm⟩)
      simp [List.filter_cons, hid, hnone]
    · have hne : ¬ a.flight_id = flightId := by
        intro heq
        exact hnot (List.mem_map.mpr ⟨f, hft, hid.trans heq.symm⟩)
      simp only [List.filter_cons, hne, decide_False]
      exact ih hndt hft

theorem flight_row_unique (fl : List FlightRow) (flightId : Int) (f g : FlightRow)
    (hnd : (fl.map fun g => g.flight_id).Nodup) (hf : f ∈ fl) (hg : g ∈ fl)
    (hfid : f.flight_id = flightId) (hgid : g.flight_id = flightId) : g = f :=
  List.inj_on_of_nodup_map hnd hg hf (hgid.trans hfid.symm)

theorem updateAvailableSeats_applied (s : Store) (flightId changeInSeats : Int)
    (f : FlightRow) (hnd : (s.flights.map fun g => g.flight_id).Nodup) (hf : f ∈ s.flights)
    (hid : f.flight_id = flightId) (hge : 0 ≤ f.available_seats + changeInSeats) :
    Flight.updateAvailableSeats s flightId changeInSeats =
      ({ s with flights := s.flights.map fun g =>
          if g.flight_id = flightId then
            { g with available_seats := g.available_seats + changeInSeats } else g }, 1) := by
  have hfil := flights_filter_single s.flights flightId f hnd hf hid
  have hcount : (s.flights.filter fun g =>
      g.flight_id = flightId ∧ g.available_seats + changeInSeats ≥ 0).length = 1 := by
    have hsplit : (s.flights.filter fun g =>
        decide (g.flight_id = flightId ∧ g.available_seats + changeInSeats ≥ 0)) =
        (s.flights.filter fun g => decide (g.flight_id = flightId)).filter
          (fun g => decide (g.available_seats + changeInSeats ≥ 0)) := by
      rw [List.filter_filter]
      congr 1
      funext g
      by_cases h1 : g.flight_id = flightId <;>
        by_cases h2 : g.available_seats + changeInSeats ≥ 0 <;> simp [h1, h2]
    rw [hsplit, hfil]
    simp [List.filter_cons, hge]
  have hmap : (s.flights.map fun g =>
      if g.flight_id = flightId ∧ g.available_seats + changeInSeats ≥ 0 then
        { g with available_seats := g.available_seats + changeInSeats } else g) =
      s.flights.map fun g =>
        if g.flight_id = flightId then
          { g with available_seats := g.available_seats + changeInSeats } else g := by
    apply List.map_congr_left
    intro g hg
    by_cases hgid : g.flight_id = flightId
    · have hgf := flight_row_unique s.flights flightId f g hnd hf hg hid hgid
      subst hgf
      simp [hgid, hge]
    · simp [hgid]
  simp only [Flight.updateAvailableSeats, hcount, hmap]

theorem updateAvailableSeats_refused (s : Store) (flightId changeInSeats : Int)
    (h : ∀ g ∈ s.flights, g.flight_id = flightId → g.available_seats + changeInSeats < 0) :
    Flight.updateAvailableSeats s flightId changeInSeats = (s, 0) := by
  have hno : ∀ g ∈ s.flights,
      ¬ (g.flight_id = flightId ∧ g.available_seats + changeInSeats ≥ 0) := by
    intro g hg hc
    have := h g hg hc.1
    omega
  have hcount : (s.flights.filter fun g =>
      g.flight_id = flightId ∧ g.available_seats + changeInSeats ≥ 0) = [] := by
    rw [List.filter_eq_nil_iff]
    intro g hg hc
    exact hno g hg (by simpa using hc)
  have hmap : (s.flights.map fun g =>
      if g.flight_id = flightId ∧ g.available_seats + changeInSeats ≥ 0 then
        { g with available_seats := g.available_seats + changeInSeats } else g) =
      s.flights := by
    have hid : s.flights.map (fun g => g) = s.flights := List.map_id' s.flights
    rw [← hid, List.map_map]
    apply List.map_congr_left
    intro g hg
    simp only [Function.comp, if_neg (hno g hg)]
  simp only [Flight.updateAvailableSeats, hcount, hmap, List.length_nil]

/-- C21. `Flight.updateAvailableSeats(flightId, change)`, `flight_id` being a
key of `FLIGHTS`: when the flight row has `a` available seats and
`a + change >= 0`, its `available_seats` becomes `a + change`, one row is
affected and nothing else changes; when `a + change < 0`, or no flight row has
the id, the store is unchanged and zero rows are affected.  So no row it writes
has a negative seat count, and non-negative counts stay non-negative.  There is
no upper bound: when `a + change` exceeds `total_seats` the row ends with more
available seats than seats. -/
theorem update_available_seats (s : Store) (flightId changeInSeats : Int)
    (hnd : (s.flights.map fun g => g.flight_id).Nodup) :
    (∀ f ∈ s.flights, f.flight_id = flightId → 0 ≤ f.available_seats + changeInSeats →
      (Flight.updateAvailableSeats s flightId changeInSeats).2 = 1 ∧
      (Flight.updateAvailableSeats s flightId changeInSeats).1 =
        { s with flights := s.flights.map fun g =>
            if g.flight_id = flightId then
              { g with available_seats := g.available_seats + changeInSeats } else g } ∧
      (Flight.updateAvailableSeats s flightId changeInSeats).1.flight? flightId =
        some { f with available_seats := f.available_seats + changeInSeats }) ∧
    (∀ f ∈ s.flights, f.flight_id = flightId → f.available_seats + changeInSeats < 0 →
      Flight.updateAvailableSeats s flightId changeInSeats = (s, 0)) ∧
    ((∀ g ∈ s.flights, g.flight_id ≠ flightId) →
      Flight.updateAvailableSeats s flightId changeInSeats = (s, 0)) ∧
    (∀ g ∈ (Flight.updateAvailableSeats s flightId changeInSeats).1.flights,
      g ∈ s.flights ∨ 0 ≤ g.available_seats) ∧
    ((∀ g ∈ s.flights, 0 ≤ g.available_seats) →
      ∀ g ∈ (Flight.updateAvailableSeats s flightId changeInSeats).1.flights,
        0 ≤ g.available_seats) ∧
    (∀ f ∈ s.flights, f.flight_id = flightId → 0 ≤ f.available_seats + changeInSeats →
      f.total_seats < f.available_seats + changeInSeats →
      ∃ g, (Flight.updateAvailableSeats s flightId changeInSeats).1.flight? flightId =
          some g ∧ g.total_seats < g.available_seats) := by
  have hrow : ∀ f ∈ s.flights, f.flight_id = flightId →
      0 ≤ f.available_seats + changeInSeats →
      (Flight.updateAvailableSeats s flightId changeInSeats).1.flight? flightId =
        some { f with available_seats := f.available_seats + changeInSeats } := by
    intro f hf hid hge
    rw [updateAvailableSeats_applied s flightId changeInSeats f hnd hf hid hge]
    have hmap := filter_map_flightId s.flights
      (fun g => if g.flight_id = flightId then
        { g with available_seats := g.available_seats + changeInSeats } else g)
      (by intro g; by_cases h : g.flight_id = flightId <;> simp [h]) flightId
    simp only [Store.flight?]
    rw [hmap, flights_filter_single s.flights flightId f hnd hf hid]
    simp [hid]
  have hwritten : ∀ g ∈ (Flight.updateAvailableSeats s flightId changeInSeats).1.flights,
      g ∈ s.flights ∨ 0 ≤ g.available_seats := by
    intro g hg
    simp only [Flight.updateAvailableSeats, List.mem_map] at hg
    obtain ⟨g0, hg0, rfl⟩ := hg
    by_cases hc : g0.flight_id = flightId ∧ g0.available_seats + changeInSeats ≥ 0
    · right
      rw [if_pos hc]
      exact hc.2
    · left
      rw [if_neg hc]
      exact hg0
  refine ⟨?_, ?_, ?_, hwritten, ?_, ?_⟩
  · intro f hf hid hge
    have h := updateAvailableSeats_applied s flightId changeInSeats f hnd hf hid hge
    exact ⟨by rw [h], by rw [h], hrow f hf hid hge⟩
  · intro f hf hid hlt
    apply updateAvailableSeats_refused
    intro g hg hgid
    rw [flight_row_unique s.flights flightId f g hnd hf hg hid hgid]
    exact hlt
  · intro hnone
    apply updateAvailableSeats_refused
    intro g hg hgid
    exact absurd hgid (hnone g hg)
  · intro hall g hg
    rcases hwritten g hg with h | h
    · exact hall g h
    · exact h
  · intro f hf hid hge hover
    exact ⟨_, hrow f hf hid hge, hover⟩

/-- C21, witness: the flight with 3 of 5 seats available.  A change of -3
leaves 0 seats, one row affected; a change of -4 is refused, as is any change
for the unknown flight 99; a change of +4 gives 7 available seats of 5. -/
theorem update_available_seats_witness :
    (Flight.updateAvailableSeats storeThreeSeats 1 (-3)).2 = 1 ∧
    (Flight.updateAvailableSeats storeThreeSeats 1 (-3)).1.flight? 1 =
      some ⟨1, "AN100", "SFO", "JFK", 1000, 2000, 20000, 5, 0⟩ ∧
    Flight.updateAvailableSeats storeThreeSeats 1 (-4) = (storeThreeSeats, 0) ∧
    Flight.updateAvailableSeats storeThreeSeats 99 2 = (storeThreeSeats, 0) ∧
    (∃ g, (Flight.updateAvailableSeats storeThreeSeats 1 4).1.flight? 1 = some g ∧
      g.total_seats < g.available_seats) := by
  have h3 := (update_available_seats storeThreeSeats 1 (-3) (by decide)).1 flightThreeSeats
    (by decide) (by decide) (by decide)
  have h4 := (update_available_seats storeThreeSeats 1 (-4) (by decide)).2.1 flightThreeSeats
    (by decide) (by decide) (by decide)
  have h99 := (update_available_seats storeThreeSeats 99 2 (by decide)).2.2.1 (by decide)
  have hup := (update_available_seats storeThreeSeats 1 4 (by decide)).2.2.2.2.2 flightThreeSeats
    (by decide) (by decide) (by decide) (by decide)
  exact ⟨h3.1, h3.2.2, h4, h99, hup⟩

end AeroNimbus
